import Mathlib

/-!
Shallow embedding of the pyRdfa core (src/State.py and src/TermOrCurie.py):
the per-node execution context, the three URI/CURIE/term resolution
strategies, the vocabulary/prefix resolver, and the remote profile loader
with its process-wide cache and cycle guard.

Python dictionaries are modelled as insertion-ordered association lists;
object identity (reference sharing between contexts, and the process-wide
profile cache that stores dictionary objects) is modelled with an explicit
heap of dictionaries addressed by natural-number pointers.  External
collaborators (urljoin, quote_URI, the document retriever and the foreign
format parsers) are parameters gathered in `ExtEnv`.
-/

namespace PyRdfa

/-! ## Python string primitives (byte strings restricted to ASCII behaviour) -/

/-- Lexicographic comparison of char lists, matching Python byte-string
comparison for ASCII data. -/
def chListLt : List Char → List Char → Bool
  | [], [] => false
  | [], _ :: _ => true
  | _ :: _, [] => false
  | a :: as, b :: bs => if a < b then true else if b < a then false else chListLt as bs

/-- Python string less-than (used for the `rdfa_version` comparisons such as
`state.rdfa_version < "1.1"`). -/
def pyStrLt (a b : String) : Bool := chListLt a.data b.data

/-- Python `str.lower()` (ASCII). -/
def lowerStr (s : String) : String := String.mk (s.data.map Char.toLower)

/-- Python whitespace characters (` \t\n\r\v\f`). -/
def isWsChar (c : Char) : Bool :=
  c = ' ' || c = '\t' || c = '\n' || c = '\r' || c = '\x0b' || c = '\x0c'

/-- Python `str.strip()`. -/
def trimStr (s : String) : String :=
  String.mk (((s.data.dropWhile isWsChar).reverse.dropWhile isWsChar).reverse)

/-- Helper for `pySplitWs`: accumulate the current token while scanning. -/
def splitWsAux : List Char → List Char → List String
  | [], [] => []
  | [], acc => [String.mk acc.reverse]
  | c :: cs, acc =>
      if isWsChar c then
        match acc with
        | [] => splitWsAux cs []
        | _ => String.mk acc.reverse :: splitWsAux cs []
      else splitWsAux cs (c :: acc)

/-- Python `str.split()` with no argument: split on whitespace runs, no empty
tokens. -/
def pySplitWs (s : String) : List String := splitWsAux s.data []

/-- Helper for `splitOnce` on the character list. -/
def splitOnceAux : List Char → Option (List Char × List Char)
  | [] => none
  | c :: cs =>
      if c = ':' then some ([], cs)
      else (splitOnceAux cs).map (fun p => (c :: p.1, p.2))

/-- Python `val.split(":", 1)` when a colon is present: the part before the
first colon and the part after it; `none` when the string has no colon. -/
def splitOnce (s : String) : Option (String × String) :=
  (splitOnceAux s.data).map (fun p => (String.mk p.1, String.mk p.2))

/-- First character of a string, if any. -/
def headChar (s : String) : Option Char := s.data.head?

/-- Last character of a string, if any. -/
def lastChar (s : String) : Option Char := s.data.getLast?

/-- The one-character string made of the last character (used for the
`joined + val[-1]` patch in `_URI`); empty for the empty string. -/
def lastCharStr (s : String) : String :=
  match s.data.getLast? with
  | some c => String.mk [c]
  | none => ""

/-- Python `s[1:-1]` (used to strip safe-CURIE brackets). -/
def innerStr (s : String) : String := String.mk (s.data.drop 1).dropLast

/-- Remainder of `s` after the literal head `p`, when `p` is a prefix of `s`
(used for the `attr.name.find("xmlns:") == 0` test plus `localName`). -/
def dropLit : List Char → List Char → Option (List Char)
  | [], s => some s
  | _ :: _, [] => none
  | p :: ps, c :: cs => if p = c then dropLit ps cs else none

/-- NCNAME shape per the source regex `^[A-Za-z][A-Za-z0-9._-]*$`
(the values reaching it are whitespace-split or stripped, so the trailing
newline that `$` would additionally admit cannot occur). -/
def ncnameMatch (s : String) : Bool :=
  match s.data with
  | [] => false
  | c :: rest =>
      (c.isAlpha) && rest.all (fun d => d.isAlpha || d.isDigit || d = '.' || d = '_' || d = '-')

/-- Scheme characters accepted by Python 2.7 `urlparse`. -/
def schemeChar (c : Char) : Bool := c.isAlpha || c.isDigit || c = '+' || c = '-' || c = '.'

/-- The scheme component `urlparse.urlsplit(url)[0]` of Python 2.7: the text
before the first colon when it is at index at least 1, consists of scheme
characters and the remainder is not a bare port number; `"http"` is
special-cased without the port test; lower-cased. -/
def urlsplitScheme (url : String) : String :=
  match url.data.findIdx? (· = ':') with
  | none => ""
  | some i =>
      if i = 0 then ""
      else
        let pre := url.data.take i
        if pre = "http".data then "http"
        else if pre.all schemeChar then
          let rest := url.data.drop (i + 1)
          if rest.isEmpty || rest.any (fun c => !c.isDigit) then
            String.mk (pre.map Char.toLower)
          else ""
        else ""

/-! ## Association lists standing for Python dictionaries -/

/-- Lookup by key, first match (Python `d[k]` / `k in d`). -/
def assocFind {α : Type} : List (String × α) → String → Option α
  | [], _ => none
  | (k, v) :: rest, q => if k = q then some v else assocFind rest q

/-- Assignment `d[k] = v`: update in place preserving position, append when
new, matching Python insertion-ordered dictionaries. -/
def assocSet {α : Type} : List (String × α) → String → α → List (String × α)
  | [], k, v => [(k, v)]
  | (k', v') :: rest, k, v =>
      if k' = k then (k, v) :: rest else (k', v') :: assocSet rest k v

/-- A string-to-string dictionary (term tables, prefix tables). -/
abbrev Dict := List (String × String)

/-- `dictGet d k` is Python `d.get(k)`. -/
def dictGet (d : Dict) (k : String) : Option String := assocFind d k

/-- `dictSet d k v` is Python `d[k] = v`. -/
def dictSet (d : Dict) (k v : String) : Dict := assocSet d k v

/-- Overlay every binding of `src` onto `d` in order
(`for key in src : d[key] = src[key]`). -/
def dictOverlay (d : Dict) (src : Dict) : Dict :=
  src.foldl (fun acc kv => dictSet acc kv.1 kv.2) d

/-- Keys of a dictionary are pairwise distinct (true of every dictionary the
code builds, since `dictSet` never duplicates a key). -/
def NodupKeysD (d : Dict) : Prop := (d.map Prod.fst).Nodup

/-! ## A heap of dictionaries: Python object identity and in-place mutation -/

/-- The heap: dictionary objects addressed by pointers, with a fresh-pointer
counter.  Sharing a pointer models Python reference sharing. -/
structure Heap where
  cells : List (Nat × Dict)
  next : Nat
  deriving Repr, DecidableEq

/-- Read the dictionary object at pointer `p` (empty when dangling). -/
def Heap.get (h : Heap) (p : Nat) : Dict :=
  match h.cells.find? (fun c => c.1 = p) with
  | some c => c.2
  | none => []

/-- Mutate the object at `p` in place. -/
def Heap.set (h : Heap) (p : Nat) (d : Dict) : Heap :=
  { h with cells := h.cells.map (fun c => if c.1 = p then (p, d) else c) }

/-- Allocate a fresh dictionary object. -/
def Heap.alloc (h : Heap) (d : Dict) : Nat × Heap :=
  (h.next, ⟨h.cells ++ [(h.next, d)], h.next + 1⟩)

/-- Heap well-formedness: every allocated pointer is below the counter. -/
def Heap.WF (h : Heap) : Prop := ∀ c ∈ h.cells, c.1 < h.next

/-! ## RDF values -/

/-- A resolution result: an rdflib `URIRef` (carrying its string) or a
`BNode` (carrying its identity; id 0 is the module-level `_empty_bnode`). -/
inductive RDFTerm where
  | uriref (s : String)
  | bnode (id : Nat)
  deriving Repr, DecidableEq

/-- String content of a term (`str(...)` on a URIRef; blank nodes carry a
generated id which no claim inspects). -/
def RDFTerm.str : RDFTerm → String
  | .uriref s => s
  | .bnode n => "N" ++ toString n

/-- Python truthiness of a URIRef/BNode: a URIRef is a string, falsy when
empty; generated BNode ids are never empty. -/
def truthyT : RDFTerm → Bool
  | .uriref s => s ≠ ""
  | .bnode _ => true

/-- Truthiness of an optional term (None is falsy). -/
def truthyOpt : Option RDFTerm → Bool
  | none => false
  | some t => truthyT t

/-- Warning kinds handed to `options.add_warning`. -/
inductive WarnKind where
  | unresolvablePfx
  | unresolvableTerm
  | incorrectProfileDef
  | incorrectPfxDef
  | generic
  deriving Repr, DecidableEq

/-- A warning emitted to the warning sink. -/
structure Warning where
  msg : String
  kind : WarnKind
  deriving Repr, DecidableEq

/-- The list of usual URI schemes of State.py. -/
def usual_schemes : List String :=
  ["doi", "file", "ftp", "gopher", "hdl", "http", "https", "imap", "isbn", "ldap", "lsid",
   "mailto", "mms", "mstp", "news", "nntp", "prospero", "rsync", "rtmp", "rtsp", "rtspu", "sftp",
   "shttp", "sip", "sips", "snews", "stp", "svn", "svn+ssh", "telnet", "tel", "urn", "wais"]

/-! ## Session state for blank nodes (`_bnodes` and `_empty_bnode`) -/

/-- The module-level blank-node session: `table` is the `_bnodes` dictionary
mapping CURIE local names to blank-node ids, `next` the next fresh id.
Id 0 is reserved for `_empty_bnode`, allocated at module load, so a
fresh session starts with `next = 1`. -/
structure BnodeSess where
  table : List (String × Nat)
  next : Nat
  deriving Repr, DecidableEq

/-- A fresh session: empty `_bnodes`, ids from 1 (`_empty_bnode` is 0). -/
def BnodeSess.init : BnodeSess := ⟨[], 1⟩

/-- Session well-formedness: the anonymous id 0 is never stored in `_bnodes`
and the counter is past it, so named blank nodes are distinct from
`_empty_bnode`. -/
def BnodeSess.WF (bn : BnodeSess) : Prop :=
  1 ≤ bn.next ∧ ∀ p ∈ bn.table, p.2 ≠ 0 ∧ p.2 < bn.next

/-! ## The per-node naming context consumed by the resolution strategies -/

/-- A markup node reduced to what the engine reads: its attribute list in
document order (DOM nodes cannot repeat an attribute name). -/
structure TCNode where
  attrs : List (String × String)
  deriving Repr, DecidableEq

/-- DOM `hasAttribute`. -/
def hasAttrB (n : TCNode) (a : String) : Bool := (assocFind n.attrs a).isSome

/-- DOM `getAttribute` (empty string when absent, as in minidom). -/
def getAttrS (n : TCNode) (a : String) : String := (assocFind n.attrs a).getD ""

/-- The slice of `ExecutionContext` (with its `TermOrCurie` dictionaries read
out of the heap) that the URI/CURIE/term strategies consume. -/
structure ExecCtx where
  rdfa_version : String
  base : String
  node : TCNode
  default_curie_uri : String
  terms : Dict
  ns : Dict
  default_term_uri : Option String
  deriving Repr

/-! ## RDF graphs of profile documents -/

/-- A node of a profile graph (rdflib `URIRef`, `Literal` or `BNode`). -/
inductive RNode where
  | uriref (s : String)
  | literal (s : String)
  | blank (n : Nat)
  deriving Repr, DecidableEq

/-- `str(...)` of a graph node. -/
def nodeStr : RNode → String
  | .uriref s => s
  | .literal s => s
  | .blank n => "N" ++ toString n

/-- A profile graph: a triple set, predicates named by their local part
under the `ns_rdfa` namespace (`term`, `prefix`, `uri`, `vocabulary`). -/
abbrev Graph := List (RNode × String × RNode)

/-- `graph.objects(None, p)`. -/
def objectsAny (g : Graph) (p : String) : List RNode :=
  (g.filter (fun t => t.2.1 = p)).map (fun t => t.2.2)

/-- `graph.subjects(p, o)`. -/
def subjectsPO (g : Graph) (p : String) (o : RNode) : List RNode :=
  (g.filter (fun t => t.2.1 = p && t.2.2 = o)).map (fun t => t.1)

/-- `graph.objects(s, p)`. -/
def objectsSP (g : Graph) (s : RNode) (p : String) : List RNode :=
  (g.filter (fun t => t.1 = s && t.2.1 = p)).map (fun t => t.2.2)

/-- The payload returned by the external `CachedURIOpener`. -/
structure Content where
  content_type : String
  data : String
  deriving Repr, DecidableEq

/-- External collaborator functions (Python stdlib, the document retriever
and the foreign-format parsers; a parser returns `none` when it raises). -/
structure ExtEnv where
  urljoin : String → String → String
  quoteURI : String → String
  fetch : String → Except String Content
  parseTurtle : String → Option Graph
  parseRDFXML : String → Option Graph
  parseNT : String → Option Graph
  parseRDFa : String → Option Graph

/-! ## TermOrCurie.CURIE_to_URI and term_to_URI -/

/-- TermOrCurie.CURIE_to_URI (src/TermOrCurie.py lines 514-574): CURIE to
URI mapping including blank-node (`_:`) processing against the session
table. -/
def CURIE_to_URI (c : ExecCtx) (bn : BnodeSess) (val : String) :
    Option RDFTerm × BnodeSess :=
  if val = "" || val = ":" then (none, bn)
  else
    match splitOnce val with
    | none => (none, bn)
    | some (p0, reference) =>
        let pfx := if pyStrLt c.rdfa_version "1.1" then p0 else lowerStr p0
        if reference ≠ "" && headChar reference = some ':' then (none, bn)
        else if pfx = "" then
          (some (.uriref (c.default_curie_uri ++ reference)), bn)
        else if pfx = "_" then
          if reference = "" then (some (.bnode 0), bn)
          else
            match assocFind bn.table reference with
            | some b => (some (.bnode b), bn)
            | none =>
                (some (.bnode bn.next), ⟨bn.table ++ [(reference, bn.next)], bn.next + 1⟩)
        else if ncnameMatch pfx then
          match dictGet c.ns pfx with
          | some nsuri =>
              if reference = "" then (some (.uriref nsuri), bn)
              else (some (.uriref (nsuri ++ reference)), bn)
          | none => (none, bn)
        else (none, bn)

/-- TermOrCurie.term_to_URI (src/TermOrCurie.py lines 576-596): look the
lower-cased term up in the term table (the source loop over `self.terms`
returns the first key equal to `term.lower()`), else fall back on the
default term URI. -/
def term_to_URI (c : ExecCtx) (term : String) : Option RDFTerm :=
  if term = "" then none
  else if ncnameMatch term then
    match dictGet c.terms (lowerStr term) with
    | some uri => some (.uriref uri)
    | none =>
        match c.default_term_uri with
        | some dtu => some (.uriref (dtu ++ term))
        | none => none
  else none

/-! ## ExecutionContext resolution strategies (src/State.py) -/

/-- The helper `check_create_URIRef` inside `ExecutionContext._URI`: strip,
warn when the scheme is unusual, build the URIRef. -/
def check_create_URIRef (uri : String) : RDFTerm × List Warning :=
  let v := trimStr uri
  if usual_schemes.contains (urlsplitScheme v) then (.uriref v, [])
  else (.uriref v, [⟨"Unusual URI scheme used " ++ v, .generic⟩])

/-- ExecutionContext._URI (src/State.py lines 238-287): plain URI
resolution against the base, including the local-file-base branch and the
trailing-character patch after `urljoin`. -/
def xURI (env : ExtEnv) (c : ExecCtx) (val : String) :
    Option RDFTerm × List Warning :=
  if val = "" then (some (.uriref c.base), [])
  else if urlsplitScheme c.base = "" then
    -- base is a local file name (`self.parsedBase[0] == ""`)
    if urlsplitScheme val = "" then (some (.uriref (c.base ++ trimStr val)), [])
    else
      let r := check_create_URIRef val
      (some r.1, r.2)
  else
    let joined := env.urljoin c.base val
    -- `val[-1] != joined[-1]` under try/except: IndexError when joined = ""
    if joined ≠ "" && lastChar val ≠ lastChar joined then
      let r := check_create_URIRef (joined ++ lastCharStr val)
      (some r.1, r.2)
    else
      let r := check_create_URIRef joined
      (some r.1, r.2)

/-- ExecutionContext._CURIEorURI (src/State.py lines 289-336): safe or
plain CURIE with version-dependent fallback on `_URI`. -/
def CURIEorURI (env : ExtEnv) (c : ExecCtx) (bn : BnodeSess) (val : String) :
    Option RDFTerm × BnodeSess × List Warning :=
  if val = "" then (some (.uriref c.base), bn, [])
  else
    let bracket := headChar val = some '['
    if bracket && lastChar val ≠ some ']' then
      (none, bn, [⟨"Illegal CURIE: " ++ val, .unresolvablePfx⟩])
    else
      let v := if bracket then innerStr val else val
      if !pyStrLt c.rdfa_version "1.1" then
        match CURIE_to_URI c bn v with
        | (none, bn') =>
            if bracket then
              (none, bn',
               [⟨"Safe CURIE was used but value does not correspond to a defined CURIE: " ++ v,
                 .unresolvablePfx⟩])
            else
              let r := xURI env c v
              (r.1, bn', r.2)
        | (some rv, bn') =>
            match rv with
            | .bnode _ => (some rv, bn', [])
            | .uriref s =>
                if urlsplitScheme s = "" then (some (.uriref (c.base ++ s)), bn', [])
                else (some rv, bn', [])
      else
        if bracket then
          let r := CURIE_to_URI c bn v
          (r.1, r.2, [])
        else
          let r := xURI env c v
          (r.1, bn, r.2)

/-- ExecutionContext._TERMorCURIEorAbsURI (src/State.py lines 338-376):
term when NCNAME-shaped, else CURIE, else under RDFa 1.1 an absolute URI
when a scheme is present. -/
def TERMorCURIEorAbsURI (_env : ExtEnv) (c : ExecCtx) (bn : BnodeSess) (val : String) :
    Option RDFTerm × BnodeSess × List Warning :=
  if val = "" then (none, bn, [])
  else if ncnameMatch val then
    let retval := term_to_URI c val
    if truthyOpt retval then (retval, bn, [])
    else (none, bn, [⟨"Unresolvable term: " ++ val, .unresolvableTerm⟩])
  else
    match CURIE_to_URI c bn val with
    | (retval, bn') =>
        if truthyOpt retval then (retval, bn', [])
        else if !pyStrLt c.rdfa_version "1.1" then
          let scheme := urlsplitScheme val
          if scheme = "" then
            (none, bn',
             [⟨"Relative URI is not allowed in this position: " ++ val, .unresolvablePfx⟩])
          else if usual_schemes.contains scheme then (some (.uriref val), bn', [])
          else
            (some (.uriref val), bn',
             [⟨"Unusual URI scheme used " ++ trimStr val, .generic⟩])
        else
          (none, bn',
           [⟨"CURIE was used but value does not correspond to a defined CURIE: " ++ trimStr val,
             .unresolvablePfx⟩])

/-! ## ExecutionContext.getURI dispatch (src/State.py lines 75-111, 380-411) -/

/-- The three resolver strategies of the `_resource_type` dispatch table. -/
inductive Strategy where
  | uri
  | curieOrURI
  | termOrCurieOrAbsURI
  deriving Repr, DecidableEq

/-- The `ExecutionContext._resource_type` table. -/
def resource_type : List (String × Strategy) :=
  [("href", .uri), ("src", .uri), ("profile", .uri), ("vocab", .uri),
   ("about", .curieOrURI), ("resource", .curieOrURI),
   ("rel", .termOrCurieOrAbsURI), ("rev", .termOrCurieOrAbsURI),
   ("datatype", .termOrCurieOrAbsURI), ("typeof", .termOrCurieOrAbsURI),
   ("property", .termOrCurieOrAbsURI)]

/-- The `ExecutionContext._list` table of list-valued attributes. -/
def listAttrs : List String := ["profile", "rel", "rev", "property", "typeof"]

/-- Apply one strategy to one value. -/
def applyStrategy (env : ExtEnv) (c : ExecCtx) (bn : BnodeSess) :
    Strategy → String → Option RDFTerm × BnodeSess × List Warning
  | .uri, v =>
      let r := xURI env c v
      (r.1, bn, r.2)
  | .curieOrURI, v => CURIEorURI env c bn v
  | .termOrCurieOrAbsURI, v => TERMorCURIEorAbsURI env c bn v

/-- Resolve each whitespace token independently, dropping unresolvable ones
(`[ r for r in resources if r != None ]`). -/
def resolveTokens (env : ExtEnv) (c : ExecCtx) (st : Strategy) :
    List String → BnodeSess → List RDFTerm × BnodeSess × List Warning
  | [], bn => ([], bn, [])
  | t :: rest, bn =>
      let r1 := applyStrategy env c bn st (trimStr t)
      let rr := resolveTokens env c st rest r1.2.1
      (match r1.1 with
       | some x => x :: rr.1
       | none => rr.1, rr.2.1, r1.2.2 ++ rr.2.2)

/-- Result of `getURI`: a list for list-valued attributes, otherwise one
optional term. -/
inductive URIRes where
  | list (xs : List RDFTerm)
  | single (x : Option RDFTerm)
  deriving Repr, DecidableEq

/-- ExecutionContext.getURI (src/State.py lines 380-411).  The bare
`val.strip()` on line 390 discards its result and is dropped; an attribute
missing from `_resource_type` falls back on the `_URI` strategy through the
`try/except` on lines 399-403. -/
def getURI (env : ExtEnv) (c : ExecCtx) (bn : BnodeSess) (attr : String) :
    URIRes × BnodeSess × List Warning :=
  if hasAttrB c.node attr then
    let val := getAttrS c.node attr
    let st := (assocFind resource_type attr).getD .uri
    if listAttrs.contains attr then
      let r := resolveTokens env c st (pySplitWs val) bn
      (.list r.1, r.2.1, r.2.2)
    else
      let r := applyStrategy env c bn st (trimStr val)
      (.single r.1, r.2.1, r.2.2)
  else if listAttrs.contains attr then (.list [], bn, [])
  else (.single none, bn, [])

/-! ## Language resolution inside ExecutionContext.__init__
(src/State.py lines 186-224) -/

/-- The host-markup families distinguished by the language code. -/
inductive HostLanguage where
  | xhtml_rdfa
  | html_rdfa
  | rdfa_core
  deriving Repr, DecidableEq

/-- Language settling of ExecutionContext.__init__: `inhLang` is the
inherited language (None at the root), `langAttr`/`xmlLangAttr` are the
raw `lang` and `xml:lang` attribute values when present.  Returns the
context language and the emitted warnings. -/
def resolveLang (host : HostLanguage) (inhLang : Option String)
    (langAttr xmlLangAttr : Option String) : Option String × List Warning :=
  if host = .xhtml_rdfa || host = .html_rdfa then
    let lang := langAttr.map lowerStr
    let xmllang := xmlLangAttr.map lowerStr
    let settled :=
      match xmllang with
      | some x => if x ≠ "" then some x else inhLang
      | none =>
          match lang with
          | some l => if l ≠ "" then some l else inhLang
          | none => inhLang
    let warns :=
      match lang, xmllang with
      | some l, some x =>
          if l ≠ x then
            [⟨"Both xml:lang and lang used on an element with different values; xml:lang prevails. ("
               ++ x ++ " and " ++ l ++ ")", .generic⟩]
          else []
      | _, _ => []
    (settled, warns)
  else
    -- xml:lang is the only possible option; an empty value resets to None
    match xmlLangAttr with
    | some x =>
        let y := lowerStr x
        (if y = "" then none else some y, [])
    | none => (inhLang, [])

/-! ## ProfileRead (src/TermOrCurie.py lines 97-298) -/

/-- The GRDDL profile URI jumped over by ProfileRead. -/
def GRDDL_PROFILE : String := "http://www.w3.org/2003/g/data-view"

/-- XHTML vocabulary namespace (default CURIE namespace at the root). -/
def XHTML_URI : String := "http://www.w3.org/1999/xhtml/vocab#"

/-- Media-type constants of the external `MediaTypes` class. -/
def mtTurtle : String := "text/turtle"

/-- RDF/XML media type. -/
def mtRdfxml : String := "application/rdf+xml"

/-- N-Triples media type. -/
def mtNt : String := "text/plain"

/-- XHTML media type. -/
def mtXhtml : String := "application/xhtml+xml"

/-- HTML media type. -/
def mtHtml : String := "text/html"

/-- XML media type. -/
def mtXml : String := "application/xml"

/-- The regex `application/[a-zA-Z0-9]+\+xml` matched with `re.match`
(anchored at the start only): `application/`, at least one alphanumeric,
then `+xml`, arbitrary trailing text. -/
def xmlAppMediaType (s : String) : Bool :=
  match dropLit "application/".data s.data with
  | none => false
  | some rest =>
      let run := rest.takeWhile (fun c => c.isAlpha || c.isDigit)
      run.length ≥ 1 &&
        (match dropLit "+xml".data (rest.drop run.length) with
         | some _ => true
         | none => false)

/-- The fatal `FailedProfile` error, carrying the offending profile URI
(the source also carries an optional HTTP code, unused by the core). -/
structure FailedProfile where
  msg : String
  uri : String
  deriving Repr, DecidableEq

/-- ProfileRead._get_graph (src/TermOrCurie.py lines 185-243): fetch the
profile document and dispatch on its content type; every failure raises
`FailedProfile` carrying the profile URI.  The three fetch except-clauses
all wrap the message the same way and are collapsed into one. -/
def get_graph (env : ExtEnv) (name : String) : Except FailedProfile Graph :=
  match env.fetch name with
  | .error e =>
      .error ⟨"Profile document " ++ name ++ " could not be dereferenced (" ++ e ++ ")", name⟩
  | .ok content =>
      if content.content_type = mtTurtle then
        match env.parseTurtle content.data with
        | some g => .ok g
        | none => .error ⟨"Could not parse Turtle content at " ++ name, name⟩
      else if content.content_type = mtRdfxml then
        match env.parseRDFXML content.data with
        | some g => .ok g
        | none => .error ⟨"Could not parse RDF/XML content at " ++ name, name⟩
      else if content.content_type = mtNt then
        match env.parseNT content.data with
        | some g => .ok g
        | none => .error ⟨"Could not parse N-Triple content at " ++ name, name⟩
      else if content.content_type = mtXhtml || content.content_type = mtHtml
          || content.content_type = mtXml || xmlAppMediaType content.content_type then
        match env.parseRDFa content.data with
        | some g => .ok g
        | none => .error ⟨"Could not parse RDFa content at " ++ name, name⟩
      else
        .error ⟨"Unrecognized media type for the vocabulary file " ++ name ++ ": "
                  ++ content.content_type, name⟩

/-- Keep the first occurrence of each node (the `frozenset` in
`_find_terms` removes duplicates; its iteration order is unspecified in
Python and modelled as first-occurrence order). -/
def dedupAux : List RNode → List RNode → List RNode
  | [], _ => []
  | x :: rest, seen =>
      if seen.contains x then dedupAux rest seen else x :: dedupAux rest (x :: seen)

/-- Deduplicated object list. -/
def dedupFirst (l : List RNode) : List RNode := dedupAux l []

/-- One candidate of `_find_terms`: the dictionary assignment it produces,
or the warning that drops it. -/
def findTermOne (g : Graph) (tp opp : String) (vmap : String → String) (t : RNode) :
    Option (String × String) × List Warning :=
  match t with
  | .literal s =>
      if ncnameMatch s then
        match subjectsPO g tp t with
        | [subj] =>
            if (objectsSP g subj tp).length = 1 then
              if (objectsSP g subj opp).length = 0 then
                match objectsSP g subj "uri" with
                | [u] => (some (lowerStr s, vmap (nodeStr u)), [])
                | [] => (none, [⟨"No URI defined for " ++ tp, .incorrectProfileDef⟩])
                | _ => (none, [⟨"More than one URIs defined for " ++ tp, .incorrectProfileDef⟩])
              else
                (none, [⟨"Same subject is used for both " ++ tp ++ " and " ++ opp,
                         .incorrectProfileDef⟩])
            else
              (none, [⟨"Same subject is used for several " ++ tp ++ " definitions",
                       .incorrectProfileDef⟩])
        | _ => (none, [⟨"The " ++ tp ++ " is defined twice; ignored", .incorrectProfileDef⟩])
      else (none, [⟨"Non NCNAME " ++ tp, .incorrectProfileDef⟩])
  | _ => (none, [⟨"Non Literal " ++ tp, .incorrectProfileDef⟩])

/-- ProfileRead._find_terms (src/TermOrCurie.py lines 245-298) as the list
of surviving dictionary assignments in iteration order plus the warnings:
`tp` is "term" or "prefix", `vmap` wraps the URI value (`URIRef` for terms,
`Namespace(quote_URI(...))` for prefixes). -/
def findTermsList (g : Graph) (tp : String) (vmap : String → String) :
    List (String × String) × List Warning :=
  let opp := if tp = "term" then "prefix" else "term"
  (dedupFirst (objectsAny g tp)).foldl
    (fun acc t =>
      let r := findTermOne g tp opp vmap t
      (acc.1 ++ (match r.1 with | some kv => [kv] | none => []), acc.2 ++ r.2))
    ([], [])

/-- The process-wide state touched by ProfileRead: the heap of dictionary
objects, the class-level `profile_cache` (mapping a profile URI to the
terms and ns dictionary objects), the class-level `profile_stack`, plus
instrumentation (`fetchLog` records each call of the opener) and the
warning sink. -/
structure ProfileGlobals where
  heap : Heap
  cache : List (String × (Nat × Nat))
  stack : List String
  fetchLog : List String
  warns : List Warning
  deriving Repr, DecidableEq

/-- The per-instance result of ProfileRead: pointers to its `terms` and
`ns` dictionary objects and its `vocabulary`. -/
structure PRRes where
  termsPtr : Nat
  nsPtr : Nat
  vocabulary : Option String
  deriving Repr, DecidableEq

/-- The vocabulary extraction of ProfileRead.__init__ (src/TermOrCurie.py
lines 160-166): exactly one `rdfa:vocabulary` object sets the vocabulary,
more than one warns and leaves it as it was, none leaves it as it was. -/
def vocResult (g : Graph) (v0 : Option String) : Option String × List Warning :=
  match objectsAny g "vocabulary" with
  | [v] => (some (nodeStr v), [])
  | [] => (v0, [])
  | _ => (v0,
          [⟨"Two or more default vocabulary URIs defined in the profile; ignored",
            .incorrectProfileDef⟩])

/-- One iteration of the `for profuriref in profs` loop of
ProfileRead.__init__ (src/TermOrCurie.py lines 139-183): skip GRDDL, skip
a URI already on the stack, else push it, answer from the cache when
possible, otherwise fetch and extract, store into the cache, pop.  A
`FailedProfile` raised by `_get_graph` propagates (skipping the pop). -/
def profileReadStep (env : ExtEnv) (pg : ProfileGlobals) (r : PRRes) (prof : String) :
    Except FailedProfile (ProfileGlobals × PRRes) :=
  if prof = GRDDL_PROFILE then .ok (pg, r)
  else if pg.stack.contains prof then .ok (pg, r)
  else
    let pg1 := { pg with stack := pg.stack ++ [prof] }
    match assocFind pg1.cache prof with
    | some ptrs =>
        .ok ({ pg1 with stack := pg1.stack.dropLast },
             { r with termsPtr := ptrs.1, nsPtr := ptrs.2 })
    | none =>
        let pg2 := { pg1 with fetchLog := pg1.fetchLog ++ [prof] }
        match get_graph env prof with
        | .error e => .error e
        | .ok g =>
            let vw := vocResult g r.vocabulary
            let tr := findTermsList g "term" id
            let heap1 := pg2.heap.set r.termsPtr (dictOverlay (pg2.heap.get r.termsPtr) tr.1)
            let nr := findTermsList g "prefix" env.quoteURI
            let heap2 := heap1.set r.nsPtr (dictOverlay (heap1.get r.nsPtr) nr.1)
            .ok ({ pg2 with
                     heap := heap2,
                     cache := assocSet pg2.cache prof (r.termsPtr, r.nsPtr),
                     stack := pg2.stack.dropLast,
                     warns := pg2.warns ++ vw.2 ++ tr.2 ++ nr.2 },
                 { r with vocabulary := vw.1 })

/-- The loop of ProfileRead.__init__ over the (already reversed) profile
URI list; a raised `FailedProfile` aborts the remaining iterations. -/
def profileLoop (env : ExtEnv) :
    List String → ProfileGlobals → PRRes → Except FailedProfile (ProfileGlobals × PRRes)
  | [], pg, r => .ok (pg, r)
  | p :: rest, pg, r =>
      match profileReadStep env pg r p with
      | .error e => .error e
      | .ok s => profileLoop env rest s.1 s.2

/-- ProfileRead.__init__ (src/TermOrCurie.py lines 118-183): allocate the
fresh `terms` and `ns` dictionaries, return at once for RDFa below 1.1,
else reverse the profile URI list (the right-most URI has the lowest
priority) and run the loop over it. -/
def profileRead (env : ExtEnv) (pg : ProfileGlobals) (ver : String) (profs : List String) :
    Except FailedProfile (ProfileGlobals × PRRes) :=
  let a1 := pg.heap.alloc []
  let a2 := a1.2.alloc []
  let pg1 := { pg with heap := a2.2 }
  let r0 : PRRes := ⟨a1.1, a2.1, none⟩
  if pyStrLt ver "1.1" then .ok (pg1, r0)
  else profileLoop env profs.reverse pg1 r0

/-! ## TermOrCurie.__init__ (src/TermOrCurie.py lines 354-512) -/

/-- The `xmlns:` attribute loop (src/TermOrCurie.py lines 437-459): for
each attribute named `xmlns:P`, write `quote_URI(value)` into the local
dictionary under `P` (lower-cased from RDFa 1.1 on), rejecting `_` and
prefixes containing a colon.  Writing is unconditional, so among `xmlns:`
declarations of the same key the last one wins.  (The `graph.bind` side
effect on the output graph is outside the core and dropped.) -/
def xmlnsLoop (env : ExtEnv) (ver : String) :
    List (String × String) → Dict → Dict × List Warning
  | [], d => (d, [])
  | (name, value) :: rest, d =>
      let step :=
        match dropLit "xmlns:".data name.data with
        | none => (d, ([] : List Warning))
        | some local0 =>
            let pfx := String.mk local0
            if pfx = "" then (d, [])
            else if pfx = "_" then
              (d, [⟨"The _ local CURIE prefix is reserved for blank nodes, and cannot be changed",
                    .incorrectPfxDef⟩])
            else if pfx.data.contains ':' then
              (d, [⟨"The character : is not valid in a CURIE Prefix", .incorrectPfxDef⟩])
            else
              let uri := env.quoteURI value
              let pr := if pyStrLt ver "1.1" then pfx else lowerStr pfx
              (dictSet d pr uri, [])
      let rec0 := xmlnsLoop env ver rest step.1
      (rec0.1, step.2 ++ rec0.2)

/-- The `@prefix` attribute pair loop (src/TermOrCurie.py lines 463-498)
over the whitespace-separated token list: a trailing token with no URI
warns and stops; a pair whose first token does not end in `:` is skipped;
the empty prefix rewrites the default CURIE namespace; `_` is rejected; a
valid NCNAME prefix is lower-cased and written **only when its key is not
already present** in the local dictionary. -/
def processPrefixAttr (env : ExtEnv) : List String → Dict → String → Dict × String × List Warning
  | [], d, dcu => (d, dcu, [])
  | [p], d, dcu => (d, dcu, [⟨"Missing URI in prefix declaration for " ++ p, .incorrectPfxDef⟩])
  | p :: v :: rest, d, dcu =>
      if lastChar p ≠ some ':' then
        let r := processPrefixAttr env rest d dcu
        (r.1, r.2.1, ⟨"Invalid prefix declaration " ++ p, .incorrectPfxDef⟩ :: r.2.2)
      else
        let pfx := String.mk p.data.dropLast
        let uri := env.quoteURI v
        if pfx = "" then processPrefixAttr env rest d uri
        else if pfx = "_" then
          let r := processPrefixAttr env rest d dcu
          (r.1, r.2.1,
           ⟨"The _ local CURIE prefix is reserved for blank nodes, and cannot be changed",
            .incorrectPfxDef⟩ :: r.2.2)
        else if ncnameMatch pfx then
          let real := lowerStr pfx
          if assocFind d real = none then processPrefixAttr env rest (dictSet d real uri) dcu
          else processPrefixAttr env rest d dcu
        else
          let r := processPrefixAttr env rest d dcu
          (r.1, r.2.1,
           ⟨"Invalid prefix declaration (must be an NCNAME) " ++ pfx, .incorrectPfxDef⟩ :: r.2.2)

/-- The whole local-namespace dictionary computation of
TermOrCurie.__init__ (src/TermOrCurie.py lines 427-498): start from the
profile-derived namespaces, overlay the `xmlns:` declarations, then apply
the `@prefix` pairs (RDFa 1.1 only); also returns the possibly rewritten
default CURIE namespace. -/
def localNsDict (env : ExtEnv) (ver : String) (node : TCNode) (profNs : Dict) (dcu0 : String) :
    Dict × String × List Warning :=
  let d0 := dictOverlay [] profNs
  let x := xmlnsLoop env ver node.attrs d0
  if !pyStrLt ver "1.1" && hasAttrB node "prefix" then
    let toks := pySplitWs (trimStr (getAttrS node "prefix"))
    let r := processPrefixAttr env toks x.1 dcu0
    (r.1, r.2.1, x.2 ++ r.2.2)
  else (x.1, dcu0, x.2)

/-- The fields of a constructed TermOrCurie instance (its dictionaries live
in the heap). -/
structure TermOrCurieRes where
  default_curie_uri : String
  termsPtr : Nat
  nsPtr : Nat
  default_term_uri : Option String
  deriving Repr, DecidableEq

/-- A context carrying only what the `_URI` strategy reads (base and node);
`getURI("profile")` and `getURI("vocab")` run before the TermOrCurie
instance exists, and their `_URI` strategy never touches the CURIE
fields. -/
def initCtx (ver base : String) (node : TCNode) : ExecCtx :=
  ⟨ver, base, node, "", [], [], none⟩

/-- `state.getURI("profile")` followed by `str(...)` on each URIRef
(src/TermOrCurie.py line 137 with line 140). -/
def profileURIs (env : ExtEnv) (ver base : String) (node : TCNode) (bn : BnodeSess) :
    List String :=
  match (getURI env (initCtx ver base node) bn "profile").1 with
  | .list xs => xs.map RDFTerm.str
  | .single _ => []

/-- Truthiness of `recursive_vocab.vocabulary` (None or a URIRef). -/
def vocabTruthy : Option String → Bool
  | none => false
  | some s => s ≠ ""

/-- TermOrCurie.__init__ (src/TermOrCurie.py lines 354-512): settle the
default CURIE namespace, run ProfileRead (whose `FailedProfile`
propagates), settle the default term URI from inherited state, profile
vocabulary and the `@vocab` attribute (`getURI("vocab")` is called twice
in the source; both calls are pure), then build the term table (shared by
reference with the inherited one when the profiles define no term) and the
namespace table (shared by reference when the local dictionary is empty
and an inherited state exists). -/
def termOrCurieInit (env : ExtEnv) (ver base : String) (node : TCNode)
    (inh : Option TermOrCurieRes) (pg : ProfileGlobals) (bn : BnodeSess) :
    Except FailedProfile (ProfileGlobals × TermOrCurieRes × List Warning) :=
  let dcu0 :=
    match inh with
    | none => XHTML_URI
    | some i => i.default_curie_uri
  match profileRead env pg ver (profileURIs env ver base node bn) with
  | .error e => .error e
  | .ok (pg1, rv) =>
      let c0 := initCtx ver base node
      let dtu :=
        if !pyStrLt ver "1.1" then
          let dt0 :=
            match inh with
            | none => none
            | some i => i.default_term_uri
          let dt1 := if vocabTruthy rv.vocabulary then rv.vocabulary else dt0
          match (getURI env c0 bn "vocab").1 with
          | .single (some t) => if truthyT t then some t.str else dt1
          | _ => dt1
        else none
      let rvTerms := pg1.heap.get rv.termsPtr
      let ta :=
        match inh with
        | none => pg1.heap.alloc (dictOverlay [] rvTerms)
        | some i =>
            if rvTerms.length = 0 then (i.termsPtr, pg1.heap)
            else pg1.heap.alloc (dictOverlay (dictOverlay [] (pg1.heap.get i.termsPtr)) rvTerms)
      let rvNs := pg1.heap.get rv.nsPtr
      let ld := localNsDict env ver node rvNs dcu0
      let na :=
        match inh with
        | some i =>
            if ld.1.length = 0 then (i.nsPtr, ta.2)
            else ta.2.alloc (dictOverlay (dictOverlay [] (ta.2.get i.nsPtr)) ld.1)
        | none => ta.2.alloc ld.1
      .ok ({ pg1 with heap := na.2 },
           ⟨ld.2.1, ta.1, na.1, dtu⟩,
           ld.2.2)

/-! ## Helper lemmas -/

/-- Lookup distributes over append, preferring the left list. -/
theorem assocFind_append {α : Type} (l1 l2 : List (String × α)) (k : String) :
    assocFind (l1 ++ l2) k =
      (match assocFind l1 k with
       | some v => some v
       | none => assocFind l2 k) := by
  induction l1 with
  | nil => simp [assocFind]
  | cons a t ih =>
      by_cases h : a.1 = k <;> simp [assocFind, h, ih]

/-- Lookup after assignment: the assigned key reads the new value, others
are untouched. -/
theorem assocFind_assocSet {α : Type} (l : List (String × α)) (k q : String) (v : α) :
    assocFind (assocSet l k v) q = if k = q then some v else assocFind l q := by
  induction l with
  | nil => by_cases h : k = q <;> simp [assocSet, assocFind, h]
  | cons a t ih =>
      obtain ⟨ak, av⟩ := a
      by_cases h1 : ak = k
      · subst h1
        simp only [assocSet, if_pos rfl, assocFind]
        by_cases h2 : ak = q <;> simp [h2]
      · simp only [assocSet, if_neg h1, assocFind]
        by_cases h2 : ak = q
        · have hkq : ¬ k = q := fun h => h1 (h2.trans h.symm)
          simp [h2, hkq]
        · simp [h2, ih]

/-- Dropping the last element of a list extended by one element. -/
theorem dropLast_append_one {α : Type} (l : List α) (x : α) :
    (l ++ [x]).dropLast = l := by
  simp

theorem filter_reverse_comm {α : Type} (q : α → Bool) (l : List α) :
    (l.filter q).reverse = l.reverse.filter q := by
  induction l with
  | nil => rfl
  | cons a t ih =>
      cases h : q a with
      | true =>
          rw [List.filter_cons, h, if_pos rfl, List.reverse_cons, ih,
              List.reverse_cons, List.filter_append, List.filter_cons, h]
          simp
      | false =>
          rw [List.filter_cons, h, List.reverse_cons, List.filter_append,
              List.filter_cons, h, if_neg Bool.false_ne_true, if_neg Bool.false_ne_true, ih]
          simp

/-- The loop step on the GRDDL profile URI changes nothing at all. -/
theorem profileReadStep_grddl (env : ExtEnv) (pg : ProfileGlobals) (r : PRRes) :
    profileReadStep env pg r GRDDL_PROFILE = .ok (pg, r) := by
  simp [profileReadStep]

/-- Filtering GRDDL out of the processed list does not change the loop. -/
theorem profileLoop_filter_grddl (env : ExtEnv) :
    ∀ (l : List String) (pg : ProfileGlobals) (r : PRRes),
      profileLoop env (l.filter (fun p => p ≠ GRDDL_PROFILE)) pg r = profileLoop env l pg r := by
  intro l
  induction l with
  | nil => intro pg r; rfl
  | cons p rest ih =>
      intro pg r
      by_cases hp : p = GRDDL_PROFILE
      · subst hp
        rw [List.filter_cons, if_neg (by simp)]
        have hr : profileLoop env (GRDDL_PROFILE :: rest) pg r = profileLoop env rest pg r := by
          simp only [profileLoop, profileReadStep_grddl]
        rw [hr]
        exact ih pg r
      · rw [List.filter_cons, if_pos (by simp [hp])]
        simp only [profileLoop]
        cases hstep : profileReadStep env pg r p with
        | error e => rfl
        | ok s => exact ih s.1 s.2

/-- A successful lookup exhibits a pair of the list. -/
theorem assocFind_mem {α : Type} :
    ∀ (l : List (String × α)) (q : String) (v : α),
      assocFind l q = some v → (q, v) ∈ l := by
  intro l
  induction l with
  | nil => intro q v h; cases h
  | cons a t ih =>
      intro q v h
      by_cases h1 : a.1 = q
      · simp only [assocFind, if_pos h1] at h
        cases h
        subst h1
        simp
      · simp only [assocFind, if_neg h1] at h
        exact List.mem_cons_of_mem _ (ih q v h)

/-- A key outside the key list is not found. -/
theorem assocFind_eq_none {α : Type} :
    ∀ (l : List (String × α)) (q : String), q ∉ l.map Prod.fst → assocFind l q = none := by
  intro l
  induction l with
  | nil => intro q _; rfl
  | cons a t ih =>
      intro q hq
      simp only [List.map_cons, List.mem_cons, not_or] at hq
      simp only [assocFind]
      rw [if_neg (fun h : a.1 = q => hq.1 h.symm)]
      exact ih q hq.2

/-- A pair of `assocSet l k v` is a pair of `l` or has key `k`. -/
theorem assocSet_mem_key {α : Type} :
    ∀ (l : List (String × α)) (k : String) (v : α) (p : String × α),
      p ∈ assocSet l k v → p ∈ l ∨ p.1 = k := by
  intro l
  induction l with
  | nil =>
      intro k v p hp
      simp only [assocSet, List.mem_singleton] at hp
      right
      rw [hp]
  | cons a t ih =>
      intro k v p hp
      by_cases h1 : a.1 = k
      · simp only [assocSet, if_pos h1, List.mem_cons] at hp
        rcases hp with hp | hp
        · right; rw [hp]
        · left; exact List.mem_cons_of_mem _ hp
      · simp only [assocSet, if_neg h1, List.mem_cons] at hp
        rcases hp with hp | hp
        · left; rw [hp]; exact List.mem_cons_self a t
        · rcases ih k v p hp with h2 | h2
          · left; exact List.mem_cons_of_mem _ h2
          · right; exact h2

/-- Assignment preserves distinctness of keys. -/
theorem assocSet_nodup {α : Type} :
    ∀ (l : List (String × α)) (k : String) (v : α),
      (l.map Prod.fst).Nodup → ((assocSet l k v).map Prod.fst).Nodup := by
  intro l
  induction l with
  | nil => intro k v _; simp [assocSet]
  | cons a t ih =>
      intro k v h
      simp only [List.map_cons, List.nodup_cons] at h
      by_cases h1 : a.1 = k
      · simp only [assocSet, if_pos h1, List.map_cons, List.nodup_cons]
        exact ⟨h1 ▸ h.1, h.2⟩
      · simp only [assocSet, if_neg h1, List.map_cons, List.nodup_cons]
        refine ⟨?_, ih k v h.2⟩
        intro hmem
        rcases List.mem_map.mp hmem with ⟨p, hp, hfst⟩
        rcases assocSet_mem_key t k v p hp with h2 | h2
        · exact h.1 (hfst ▸ List.mem_map_of_mem Prod.fst h2)
        · exact h1 (by rw [← hfst, h2])

/-- dictOverlay as repeated assignment, peeled one binding at a time. -/
theorem dictOverlay_cons (d : Dict) (a : String × String) (src : Dict) :
    dictOverlay d (a :: src) = dictOverlay (dictSet d a.1 a.2) src := rfl

/-- Overlaying preserves distinctness of keys of the base dictionary. -/
theorem dictOverlay_nodup :
    ∀ (src d : Dict), NodupKeysD d → NodupKeysD (dictOverlay d src) := by
  intro src
  induction src with
  | nil => intro d h; exact h
  | cons a t ih =>
      intro d h
      rw [dictOverlay_cons]
      exact ih _ (assocSet_nodup d a.1 a.2 h)

/-- Reading an overlaid dictionary whose overlay has distinct keys: the
overlay wins where it binds, the base is read elsewhere. -/
theorem dictOverlay_find :
    ∀ (src d : Dict) (k : String), NodupKeysD src →
      dictGet (dictOverlay d src) k =
        (match dictGet src k with
         | some v => some v
         | none => dictGet d k) := by
  intro src
  induction src with
  | nil => intro d k _; simp [dictOverlay, dictGet, assocFind]
  | cons a t ih =>
      intro d k h
      have hn : NodupKeysD t := by
        simpa [NodupKeysD, List.nodup_cons] using (List.nodup_cons.mp h).2
      rw [dictOverlay_cons, ih (dictSet d a.1 a.2) k hn]
      by_cases h1 : a.1 = k
      · have hkt : k ∉ t.map Prod.fst := by
          have := (List.nodup_cons.mp h).1
          rw [h1] at this
          exact this
        rw [show dictGet t k = none from assocFind_eq_none t k hkt]
        simp only [dictGet, assocFind, if_pos h1]
        simp [dictSet, assocFind_assocSet, h1]
      · simp only [dictGet, assocFind, if_neg h1]
        cases hf : assocFind t k with
        | some v => rfl
        | none => simp [dictSet, assocFind_assocSet, h1]

/-! ## The claims -/

/-- C10: a profile URI equal to the GRDDL profile URI is skipped entirely
by profile processing: the loop step on it leaves the globals (heap,
cache, stack, fetch log, warnings) and the instance result untouched, and
a whole ProfileRead run equals the run on the list with every GRDDL
occurrence removed, so GRDDL contributes no term, prefix or vocabulary
binding, is never fetched, stacked or cached. -/
theorem C10_grddl_profile_skipped (env : ExtEnv) (pg : ProfileGlobals) (r : PRRes)
    (ver : String) (profs : List String) :
    profileReadStep env pg r GRDDL_PROFILE = .ok (pg, r) ∧
    profileRead env pg ver profs =
      profileRead env pg ver (profs.filter (fun p => p ≠ GRDDL_PROFILE)) := by
  refine ⟨profileReadStep_grddl env pg r, ?_⟩
  unfold profileRead
  by_cases hv : pyStrLt ver "1.1"
  · simp [hv]
  · simp only [hv, if_false, Bool.false_eq_true]
    rw [filter_reverse_comm, profileLoop_filter_grddl]

/-- C9: getURI is total over attribute names: an attribute present on the
node but absent from the `_resource_type` dispatch table does not raise;
it falls back on the plain-URI strategy and returns that strategy's result
for the (stripped) attribute value. -/
theorem C9_getURI_unmapped_attr_falls_back (env : ExtEnv) (c : ExecCtx) (bn : BnodeSess)
    (attr : String)
    (hpres : hasAttrB c.node attr = true)
    (hmiss : assocFind resource_type attr = none) :
    getURI env c bn attr =
      (.single (xURI env c (trimStr (getAttrS c.node attr))).1, bn,
       (xURI env c (trimStr (getAttrS c.node attr))).2) := by
  have hmemn : attr ∉ listAttrs := by
    intro hmem
    simp only [listAttrs, List.mem_cons, List.not_mem_nil, or_false] at hmem
    rcases hmem with h | h | h | h | h <;> (subst h; revert hmiss; decide)
  simp [getURI, hpres, hmemn, hmiss, applyStrategy]

/-- Concrete external collaborators used in witnesses: string urljoin,
identity quote, an offline retriever, no parsers. -/
def wEnv : ExtEnv :=
  ⟨fun b v => b ++ v, id, fun _ => .error "offline", fun _ => none, fun _ => none,
   fun _ => none, fun _ => none⟩

/-- A node carrying an attribute outside the dispatch table. -/
def wNodeC9 : TCNode := ⟨[("data-item", "x/y")]⟩

/-- A context over that node. -/
def wCtxC9 : ExecCtx := ⟨"1.1", "http://base/", wNodeC9, XHTML_URI, [], [], none⟩

/-- The same context under RDFa 1.0. -/
def wCtx10 : ExecCtx := ⟨"1.0", "http://base/", wNodeC9, XHTML_URI, [], [], none⟩

/-- Witness for C9: the attribute `data-item` is present but unmapped, and
getURI returns the plain-URI strategy result for it. -/
theorem C9_witness :
    (hasAttrB wNodeC9 "data-item" = true ∧ assocFind resource_type "data-item" = none) ∧
    getURI wEnv wCtxC9 BnodeSess.init "data-item" =
      (.single (xURI wEnv wCtxC9 (trimStr (getAttrS wNodeC9 "data-item"))).1, BnodeSess.init,
       (xURI wEnv wCtxC9 (trimStr (getAttrS wNodeC9 "data-item"))).2) :=
  ⟨⟨by decide, by decide⟩,
   C9_getURI_unmapped_attr_falls_back wEnv wCtxC9 BnodeSess.init "data-item"
     (by decide) (by decide)⟩

/-- C5 as stated is false: in a host family that supports only `xml:lang`
(rdfa_core), a node with an empty `xml:lang` does not keep the inherited
language `en` — the constructed language is cleared to None. -/
theorem C5_counterexample_empty_xmllang_clears :
    (resolveLang .rdfa_core (some "en") none (some "")).1 = none ∧
    ¬ (resolveLang .rdfa_core (some "en") none (some "")).1 = some "en" := by
  constructor
  · decide
  · decide

/-- C5 amended: in the xhtml/html families an empty `lang`/`xml:lang`
never overrides the inherited language, and a non-empty `xml:lang`
disagreeing with `lang` wins while a single warning naming both values is
emitted; but in the XML-core family (which supports only `xml:lang`) an
empty `xml:lang` clears the language to None instead of inheriting. -/
theorem C5_language_resolution_amended (host : HostLanguage) (inh : Option String)
    (la : Option String) (l x : String) :
    ((host = .xhtml_rdfa ∨ host = .html_rdfa) →
       (resolveLang host inh la (some "")).1 = inh ∧
       (resolveLang host inh (some "") none).1 = inh ∧
       (lowerStr l ≠ lowerStr x → lowerStr x ≠ "" →
         resolveLang host inh (some l) (some x) =
           (some (lowerStr x),
            [⟨"Both xml:lang and lang used on an element with different values; xml:lang prevails. ("
               ++ lowerStr x ++ " and " ++ lowerStr l ++ ")", .generic⟩]))) ∧
    (resolveLang .rdfa_core inh la (some "")).1 = none := by
  constructor
  · intro hh
    have hb : (host = HostLanguage.xhtml_rdfa || host = HostLanguage.html_rdfa) = true := by
      rcases hh with h | h <;> simp [h]
    refine ⟨?_, ?_, ?_⟩
    · simp [resolveLang, hb, lowerStr]
    · simp [resolveLang, hb, lowerStr]
    · intro hne hxe
      simp [resolveLang, hb, hne, hxe]
  · simp [resolveLang, lowerStr]

/-- Witness for C5 amended, in the xhtml family with inherited `en`,
`lang="FR"` and `xml:lang="DE"`. -/
theorem C5_witness :
    ((HostLanguage.xhtml_rdfa = HostLanguage.xhtml_rdfa ∨
        HostLanguage.xhtml_rdfa = HostLanguage.html_rdfa) ∧
      lowerStr "FR" ≠ lowerStr "DE" ∧ lowerStr "DE" ≠ "") ∧
    (resolveLang .xhtml_rdfa (some "en") (some "fr") (some "")).1 = some "en" ∧
    resolveLang .xhtml_rdfa (some "en") (some "FR") (some "DE") =
      (some (lowerStr "DE"),
       [⟨"Both xml:lang and lang used on an element with different values; xml:lang prevails. ("
          ++ lowerStr "DE" ++ " and " ++ lowerStr "FR" ++ ")", .generic⟩]) :=
  ⟨⟨Or.inl rfl, by decide, by decide⟩,
   ((C5_language_resolution_amended .xhtml_rdfa (some "en") (some "fr") "FR" "DE").1
       (Or.inl rfl)).1,
   ((C5_language_resolution_amended .xhtml_rdfa (some "en") (some "fr") "FR" "DE").1
       (Or.inl rfl)).2.2 (by decide) (by decide)⟩

/-- C3: for a non-empty value routed through the term-or-CURIE-or-absolute
strategy that is not NCNAME-shaped and whose CURIE resolution yields no
truthy result: under RDFa 1.1 the raw value is accepted as an absolute URI
exactly when it has a non-empty scheme (a scheme-less value gives None with
an UnresolvablePrefix warning, an unusual scheme adds the PlainURI-style
warning); under RDFa 1.0 the result is always None with an
UnresolvablePrefix warning — the raw value is never accepted. -/
theorem C3_term_strategy_version_fallback (env : ExtEnv) (c : ExecCtx) (bn : BnodeSess)
    (val : String)
    (hne : val ≠ "")
    (hnc : ncnameMatch val = false)
    (hcf : truthyOpt (CURIE_to_URI c bn val).1 = false) :
    (pyStrLt c.rdfa_version "1.1" = false →
       (urlsplitScheme val ≠ "" →
          (TERMorCURIEorAbsURI env c bn val).1 = some (.uriref val) ∧
          (TERMorCURIEorAbsURI env c bn val).2.2 =
            (if usual_schemes.contains (urlsplitScheme val) then []
             else [⟨"Unusual URI scheme used " ++ trimStr val, .generic⟩])) ∧
       (urlsplitScheme val = "" →
          (TERMorCURIEorAbsURI env c bn val).1 = none ∧
          (TERMorCURIEorAbsURI env c bn val).2.2 =
            [⟨"Relative URI is not allowed in this position: " ++ val, .unresolvablePfx⟩])) ∧
    (pyStrLt c.rdfa_version "1.1" = true →
       (TERMorCURIEorAbsURI env c bn val).1 = none ∧
       (TERMorCURIEorAbsURI env c bn val).2.2 =
         [⟨"CURIE was used but value does not correspond to a defined CURIE: " ++ trimStr val,
           .unresolvablePfx⟩]) := by
  rcases hcu : CURIE_to_URI c bn val with ⟨r0, bn0⟩
  rw [hcu] at hcf
  constructor
  · intro hv
    constructor
    · intro hs
      by_cases hus : urlsplitScheme val ∈ usual_schemes
      · constructor <;> simp [TERMorCURIEorAbsURI, hne, hnc, hcu, hcf, hv, hs, hus]
      · constructor <;> simp [TERMorCURIEorAbsURI, hne, hnc, hcu, hcf, hv, hs, hus]
    · intro hs
      constructor <;> simp [TERMorCURIEorAbsURI, hne, hnc, hcu, hcf, hv, hs]
  · intro hv
    constructor <;> simp [TERMorCURIEorAbsURI, hne, hnc, hcu, hcf, hv]

/-- Witness for C3 at the value `bla:blubb` (undefined CURIE with a scheme,
RDFa 1.1 context) and at the same value in a 1.0 context. -/
theorem C3_witness :
    (("bla:blubb" : String) ≠ "" ∧ ncnameMatch "bla:blubb" = false ∧
      truthyOpt (CURIE_to_URI wCtxC9 BnodeSess.init "bla:blubb").1 = false ∧
      pyStrLt (ExecCtx.rdfa_version wCtxC9) "1.1" = false ∧
      urlsplitScheme "bla:blubb" ≠ "") ∧
    (TERMorCURIEorAbsURI wEnv wCtxC9 BnodeSess.init "bla:blubb").1 =
      some (.uriref "bla:blubb") ∧
    (TERMorCURIEorAbsURI wEnv wCtx10 BnodeSess.init "bla:blubb").1 = none :=
  ⟨⟨by decide, by decide, by decide, by decide, by decide⟩,
   (((C3_term_strategy_version_fallback wEnv wCtxC9 BnodeSess.init "bla:blubb"
        (by decide) (by decide) (by decide)).1 (by decide)).1 (by decide)).1,
   ((C3_term_strategy_version_fallback wEnv wCtx10 BnodeSess.init "bla:blubb"
        (by decide) (by decide) (by decide)).2 (by decide)).1⟩

/-- The prefix computed by CURIE_to_URI for `_` is `_` under either
version branch. -/
theorem curie_pfx_underscore (ver : String) :
    (if pyStrLt ver "1.1" then "_" else lowerStr "_") = "_" := by
  cases h : pyStrLt ver "1.1" with
  | false =>
      rw [if_neg (by simp [h])]
      decide
  | true => rw [if_pos (by simp [h])]

/-- CURIE_to_URI on a blank-node CURIE `_:x` with non-empty local name `x`
reduces to the `_bnodes` session lookup-or-allocate. -/
theorem CURIE_to_URI_blank (c : ExecCtx) (bn : BnodeSess) (val x : String)
    (h1 : val ≠ "") (h2 : val ≠ ":") (h3 : splitOnce val = some ("_", x))
    (h4 : x ≠ "") (h5 : headChar x ≠ some ':') :
    CURIE_to_URI c bn val =
      (match assocFind bn.table x with
       | some b => (some (.bnode b), bn)
       | none => (some (.bnode bn.next), ⟨bn.table ++ [(x, bn.next)], bn.next + 1⟩)) := by
  simp only [CURIE_to_URI, h3]
  rw [if_neg (by simp [h1, h2])]
  rw [curie_pfx_underscore]
  rw [if_neg (by simp [h5])]
  rw [if_neg (by decide)]
  rw [if_pos rfl]
  rw [if_neg h4]

/-- C7: within one session, resolving the blank-node CURIE `_:x` twice
(anywhere: the two calls may come from different contexts) returns the
identical blank node — the first call allocates or finds it, the second
returns the stored node and leaves the session unchanged — and that node
is distinct from the shared anonymous blank node, which every call on the
bare `_:` returns (with the session untouched). -/
theorem C7_blank_node_identity (c1 c2 c3 : ExecCtx) (bn : BnodeSess) (val x : String)
    (h1 : val ≠ "") (h2 : val ≠ ":") (h3 : splitOnce val = some ("_", x))
    (h4 : x ≠ "") (h5 : headChar x ≠ some ':') (hwf : bn.WF) :
    (∃ b : Nat, b ≠ 0 ∧
       (CURIE_to_URI c1 bn val).1 = some (.bnode b) ∧
       CURIE_to_URI c2 (CURIE_to_URI c1 bn val).2 val =
         (some (.bnode b), (CURIE_to_URI c1 bn val).2)) ∧
    CURIE_to_URI c3 bn "_:" = (some (.bnode 0), bn) := by
  constructor
  · rw [CURIE_to_URI_blank c1 bn val x h1 h2 h3 h4 h5]
    cases hf : assocFind bn.table x with
    | some b =>
        refine ⟨b, ?_, ?_, ?_⟩
        · exact (hwf.2 (x, b) (assocFind_mem bn.table x b hf)).1
        · simp
        · simp only
          rw [CURIE_to_URI_blank c2 bn val x h1 h2 h3 h4 h5, hf]
    | none =>
        refine ⟨bn.next, ?_, ?_, ?_⟩
        · have := hwf.1
          omega
        · simp
        · simp only
          rw [CURIE_to_URI_blank c2 _ val x h1 h2 h3 h4 h5]
          have hfa : assocFind (bn.table ++ [(x, bn.next)]) x = some bn.next := by
            rw [assocFind_append, hf]
            simp [assocFind]
          simp only [hfa]
  · simp only [CURIE_to_URI, show splitOnce "_:" = some ("_", "") from rfl]
    rw [if_neg (by decide)]
    rw [curie_pfx_underscore]
    rw [if_neg (by decide)]
    rw [if_neg (by decide)]
    rw [if_pos rfl]
    simp

/-- Witness for C7 at the CURIE `_:b1` on a fresh session (the two calls
use different contexts, as when two nodes mention the same blank node). -/
theorem C7_witness :
    (("_:b1" : String) ≠ "" ∧ ("_:b1" : String) ≠ ":" ∧
      splitOnce "_:b1" = some ("_", "b1") ∧ ("b1" : String) ≠ "" ∧
      headChar "b1" ≠ some ':' ∧ BnodeSess.WF BnodeSess.init) ∧
    (CURIE_to_URI wCtxC9 BnodeSess.init "_:b1").1 =
      (CURIE_to_URI wCtx10 (CURIE_to_URI wCtxC9 BnodeSess.init "_:b1").2 "_:b1").1 ∧
    (CURIE_to_URI wCtxC9 BnodeSess.init "_:b1").1 ≠ some (.bnode 0) ∧
    CURIE_to_URI wCtxC9 BnodeSess.init "_:" = (some (.bnode 0), BnodeSess.init) := by
  have hwf : BnodeSess.WF BnodeSess.init := ⟨by decide, fun p hp => by cases hp⟩
  obtain ⟨⟨b, hb0, hr1, hr2⟩, hanon⟩ :=
    C7_blank_node_identity wCtxC9 wCtx10 wCtxC9 BnodeSess.init "_:b1" "b1"
      (by decide) (by decide) (by decide) (by decide) (by decide) hwf
  refine ⟨⟨by decide, by decide, by decide, by decide, by decide, hwf⟩, ?_, ?_, hanon⟩
  · rw [hr1, hr2]
  · rw [hr1]
    intro hc
    simp only [Option.some.injEq, RDFTerm.bnode.injEq] at hc
    exact hb0 hc

/-- The `@prefix` pair processor never overwrites an existing key of the
local dictionary: every binding present before it runs is still bound to
the same value afterwards. -/
theorem processPrefixAttr_preserves (env : ExtEnv) :
    ∀ (n : Nat) (toks : List String), toks.length ≤ n → ∀ (d : Dict) (dcu k v : String),
      assocFind d k = some v →
      assocFind (processPrefixAttr env toks d dcu).1 k = some v := by
  intro n
  induction n with
  | zero =>
      intro toks hlen d dcu k v hd
      have : toks = [] := List.eq_nil_of_length_eq_zero (Nat.le_zero.mp hlen)
      subst this
      simpa [processPrefixAttr] using hd
  | succ n ih =>
      intro toks hlen d dcu k v hd
      match toks with
      | [] => simpa [processPrefixAttr] using hd
      | [p] => simpa [processPrefixAttr] using hd
      | p :: vv :: rest =>
          have hr : rest.length ≤ n := by
            simp only [List.length_cons] at hlen
            omega
          by_cases hc : lastChar p = some ':'
          · simp only [processPrefixAttr, ne_eq, hc, not_true_eq_false, if_false]
            set pfx := String.mk p.data.dropLast with hpfx
            by_cases he : pfx = ""
            · simp only [he, if_pos rfl]
              exact ih rest hr d (env.quoteURI vv) k v hd
            · rw [if_neg he]
              by_cases hu : pfx = "_"
              · simp only [hu, if_pos rfl]
                exact ih rest hr d dcu k v hd
              · rw [if_neg hu]
                by_cases hn : ncnameMatch pfx = true
                · simp only [hn, if_true]
                  by_cases hf : assocFind d (lowerStr pfx) = none
                  · simp only [hf, if_pos rfl]
                    refine ih rest hr _ dcu k v ?_
                    have hkne : lowerStr pfx ≠ k := by
                      intro hkk
                      rw [hkk, hd] at hf
                      cases hf
                    simp only [dictSet, assocFind_assocSet, if_neg hkne]
                    exact hd
                  · rw [if_neg hf]
                    exact ih rest hr d dcu k v hd
                · simp only [hn, Bool.false_eq_true, if_false]
                  exact ih rest hr d dcu k v hd
          · simp only [processPrefixAttr, ne_eq, hc, not_false_eq_true, if_true]
            exact ih rest hr d dcu k v hd

/-- The `@prefix` pair processor preserves distinctness of the local
dictionary's keys. -/
theorem processPrefixAttr_nodup (env : ExtEnv) :
    ∀ (n : Nat) (toks : List String), toks.length ≤ n → ∀ (d : Dict) (dcu : String),
      NodupKeysD d → NodupKeysD (processPrefixAttr env toks d dcu).1 := by
  intro n
  induction n with
  | zero =>
      intro toks hlen d dcu hd
      have : toks = [] := List.eq_nil_of_length_eq_zero (Nat.le_zero.mp hlen)
      subst this
      simpa [processPrefixAttr] using hd
  | succ n ih =>
      intro toks hlen d dcu hd
      match toks with
      | [] => simpa [processPrefixAttr] using hd
      | [p] => simpa [processPrefixAttr] using hd
      | p :: vv :: rest =>
          have hr : rest.length ≤ n := by
            simp only [List.length_cons] at hlen
            omega
          by_cases hc : lastChar p = some ':'
          · simp only [processPrefixAttr, ne_eq, hc, not_true_eq_false, if_false]
            set pfx := String.mk p.data.dropLast with hpfx
            by_cases he : pfx = ""
            · simp only [he, if_pos rfl]
              exact ih rest hr d (env.quoteURI vv) hd
            · rw [if_neg he]
              by_cases hu : pfx = "_"
              · simp only [hu, if_pos rfl]
                exact ih rest hr d dcu hd
              · rw [if_neg hu]
                by_cases hn : ncnameMatch pfx = true
                · simp only [hn, if_true]
                  by_cases hf : assocFind d (lowerStr pfx) = none
                  · simp only [hf, if_pos rfl]
                    exact ih rest hr _ dcu (assocSet_nodup d _ _ hd)
                  · rw [if_neg hf]
                    exact ih rest hr d dcu hd
                · simp only [hn, Bool.false_eq_true, if_false]
                  exact ih rest hr d dcu hd
          · simp only [processPrefixAttr, ne_eq, hc, not_false_eq_true, if_true]
            exact ih rest hr d dcu hd

/-- The `xmlns:` loop preserves distinctness of the local dictionary's
keys. -/
theorem xmlnsLoop_nodup (env : ExtEnv) (ver : String) :
    ∀ (attrs : List (String × String)) (d : Dict),
      NodupKeysD d → NodupKeysD (xmlnsLoop env ver attrs d).1 := by
  intro attrs
  induction attrs with
  | nil => intro d hd; simpa [xmlnsLoop] using hd
  | cons a rest ih =>
      intro d hd
      obtain ⟨name, value⟩ := a
      simp only [xmlnsLoop]
      cases hdl : dropLit "xmlns:".data name.data with
      | none => exact ih d hd
      | some local0 =>
          dsimp only
          by_cases he : String.mk local0 = ""
          · rw [if_pos he]
            exact ih d hd
          · rw [if_neg he]
            by_cases hu : String.mk local0 = "_"
            · rw [if_pos hu]
              exact ih d hd
            · rw [if_neg hu]
              by_cases hcol : local0.contains ':' = true
              · rw [if_pos hcol]
                exact ih d hd
              · rw [if_neg hcol]
                exact ih _ (assocSet_nodup d _ _ hd)

/-- The whole local dictionary has pairwise distinct keys. -/
theorem localNsDict_nodup (env : ExtEnv) (ver : String) (node : TCNode)
    (profNs : Dict) (dcu0 : String) :
    NodupKeysD (localNsDict env ver node profNs dcu0).1 := by
  have h0 : NodupKeysD (dictOverlay [] profNs) :=
    dictOverlay_nodup profNs [] (by simp [NodupKeysD])
  have h1 : NodupKeysD (xmlnsLoop env ver node.attrs (dictOverlay [] profNs)).1 :=
    xmlnsLoop_nodup env ver node.attrs _ h0
  unfold localNsDict
  by_cases hc : (!pyStrLt ver "1.1" && hasAttrB node "prefix") = true
  · simp only [hc, if_true]
    exact processPrefixAttr_nodup env _ _ (Nat.le_refl _) _ _ h1
  · simp only [Bool.not_eq_true] at hc
    simp only [hc, Bool.false_eq_true, if_false]
    exact h1

/-- C4: a key declared namespace-style (`xmlns:`) on the node keeps its
namespace value through `@prefix` processing (a `@prefix` pair is written
into the local map only when its key is not already present), and the
node's final prefix map — the inherited map overlaid with the local one —
still binds the key to the namespace-style value. -/
theorem C4_xmlns_wins_over_prefix_pairs (env : ExtEnv) (ver : String) (node : TCNode)
    (profNs : Dict) (dcu0 k v : String) (inhD : Dict)
    (hx : assocFind (xmlnsLoop env ver node.attrs (dictOverlay [] profNs)).1 k = some v) :
    assocFind (localNsDict env ver node profNs dcu0).1 k = some v ∧
    assocFind (dictOverlay inhD (localNsDict env ver node profNs dcu0).1) k = some v := by
  have hloc : assocFind (localNsDict env ver node profNs dcu0).1 k = some v := by
    unfold localNsDict
    by_cases hc : (!pyStrLt ver "1.1" && hasAttrB node "prefix") = true
    · simp only [hc, if_true]
      exact processPrefixAttr_preserves env _ _ (Nat.le_refl _) _ _ k v hx
    · simp only [Bool.not_eq_true] at hc
      simp only [hc, Bool.false_eq_true, if_false]
      exact hx
  refine ⟨hloc, ?_⟩
  have := dictOverlay_find (localNsDict env ver node profNs dcu0).1 inhD k
    (localNsDict_nodup env ver node profNs dcu0)
  rw [show dictGet (dictOverlay inhD (localNsDict env ver node profNs dcu0).1) k =
        assocFind (dictOverlay inhD (localNsDict env ver node profNs dcu0).1) k from rfl] at this
  rw [this]
  simp [dictGet, hloc]

/-- A node declaring `ex` both namespace-style and through a `prefix`
pair. -/
def wNodeC4 : TCNode := ⟨[("xmlns:ex", "http://one/"), ("prefix", "ex: http://two/")]⟩

/-- A node declaring `ex` only through the `prefix` pair. -/
def wNodeC4b : TCNode := ⟨[("prefix", "ex: http://two/")]⟩

/-- Witness for C4: with both declarations present the local and final
maps bind `ex` to the namespace-style URI, although the `prefix` pair
alone would have bound it to the other URI. -/
theorem C4_witness :
    (assocFind (xmlnsLoop wEnv "1.1" wNodeC4.attrs (dictOverlay [] [])).1 "ex" =
        some "http://one/" ∧
      assocFind (localNsDict wEnv "1.1" wNodeC4b [] XHTML_URI).1 "ex" = some "http://two/") ∧
    assocFind (localNsDict wEnv "1.1" wNodeC4 [] XHTML_URI).1 "ex" = some "http://one/" ∧
    assocFind (dictOverlay [("ex", "http://inh/")]
        (localNsDict wEnv "1.1" wNodeC4 [] XHTML_URI).1) "ex" = some "http://one/" :=
  ⟨⟨by decide, by decide⟩,
   (C4_xmlns_wins_over_prefix_pairs wEnv "1.1" wNodeC4 [] XHTML_URI "ex" "http://one/"
      [("ex", "http://inh/")] (by decide)).1,
   (C4_xmlns_wins_over_prefix_pairs wEnv "1.1" wNodeC4 [] XHTML_URI "ex" "http://one/"
      [("ex", "http://inh/")] (by decide)).2⟩

/-- A pointer is live in the heap. -/
def Heap.Alloc (h : Heap) (p : Nat) : Prop := ∃ c ∈ h.cells, c.1 = p

/-- Generic find? over an append, preferring the left part. -/
theorem listFind?_append {α : Type} (f : α → Bool) :
    ∀ (l1 l2 : List α),
      (l1 ++ l2).find? f =
        (match l1.find? f with
         | some x => some x
         | none => l2.find? f) := by
  intro l1 l2
  induction l1 with
  | nil => simp
  | cons a t ih =>
      cases hfa : f a with
      | true => simp [List.find?, hfa]
      | false => simp [List.find?, hfa, ih]

/-- Mutating one cell leaves every other pointer's content unchanged. -/
theorem Heap.get_set_ne (h : Heap) (p q : Nat) (d : Dict) (hne : q ≠ p) :
    (h.set p d).get q = h.get q := by
  obtain ⟨cells, nxt⟩ := h
  simp only [Heap.set, Heap.get]
  induction cells with
  | nil => rfl
  | cons c t ih =>
      by_cases hc : c.1 = p
      · rw [List.map_cons, if_pos hc]
        rw [List.find?_cons_of_neg _ (by
              simp only [decide_eq_true_eq]
              exact fun h => hne h.symm),
            List.find?_cons_of_neg _ (by
              simp only [decide_eq_true_eq]
              rw [hc]
              exact fun h => hne h.symm)]
        exact ih
      · rw [List.map_cons, if_neg hc]
        by_cases hq2 : c.1 = q
        · rw [List.find?_cons_of_pos _ (by simp [hq2]),
              List.find?_cons_of_pos _ (by simp [hq2])]
        · rw [List.find?_cons_of_neg _ (by simp [hq2]),
              List.find?_cons_of_neg _ (by simp [hq2])]
          exact ih

/-- Mutating a live cell makes its content the written dictionary. -/
theorem Heap.get_set_self (h : Heap) (p : Nat) (d : Dict) (hp : h.Alloc p) :
    (h.set p d).get p = d := by
  obtain ⟨cells, nxt⟩ := h
  simp only [Heap.set, Heap.get]
  obtain ⟨c0, hc0, hc0p⟩ := hp
  simp only at hc0
  induction cells with
  | nil => cases hc0
  | cons c t ih =>
      by_cases hc : c.1 = p
      · simp [List.find?, hc]
      · simp only [List.map_cons, if_neg hc, List.find?]
        have : (decide (c.1 = p)) = false := by simp [hc]
        rw [this]
        rcases List.mem_cons.mp hc0 with h1 | h1
        · exact absurd (h1 ▸ hc0p) hc
        · exact ih h1

/-- Mutation never changes which pointers are live. -/
theorem Heap.set_Alloc (h : Heap) (p q : Nat) (d : Dict) :
    (h.set p d).Alloc q ↔ h.Alloc q := by
  obtain ⟨cells, nxt⟩ := h
  simp only [Heap.set, Heap.Alloc]
  constructor
  · rintro ⟨c, hc, hcp⟩
    rcases List.mem_map.mp hc with ⟨c0, hc0, heq⟩
    by_cases h0 : c0.1 = p
    · refine ⟨c0, hc0, ?_⟩
      rw [if_pos h0] at heq
      rw [← hcp, ← heq, h0]
    · refine ⟨c0, hc0, ?_⟩
      rw [if_neg h0] at heq
      rw [← hcp, ← heq]
  · rintro ⟨c, hc, hcp⟩
    by_cases h0 : c.1 = p
    · exact ⟨(p, d), List.mem_map.mpr ⟨c, hc, by rw [if_pos h0]⟩, by rw [← hcp, h0]⟩
    · exact ⟨c, List.mem_map.mpr ⟨c, hc, by rw [if_neg h0]⟩, hcp⟩

/-- Mutation preserves heap well-formedness. -/
theorem Heap.set_WF (h : Heap) (p : Nat) (d : Dict) (hwf : h.WF) : (h.set p d).WF := by
  intro c hc
  obtain ⟨cells, nxt⟩ := h
  simp only [Heap.set] at hc
  rcases List.mem_map.mp hc with ⟨c0, hc0, heq⟩
  have := hwf c0 hc0
  by_cases h0 : c0.1 = p
  · rw [if_pos h0] at heq
    simpa [← heq, ← h0] using this
  · rw [if_neg h0] at heq
    simpa [← heq] using this

/-- Mutation does not touch the allocation counter. -/
theorem Heap.set_next (h : Heap) (p : Nat) (d : Dict) : (h.set p d).next = h.next := rfl

/-- A fresh allocation reads back the written dictionary. -/
theorem Heap.alloc_get_new (h : Heap) (d : Dict) (hwf : h.WF) :
    (h.alloc d).2.get (h.alloc d).1 = d := by
  obtain ⟨cells, nxt⟩ := h
  simp only [Heap.alloc, Heap.get, listFind?_append]
  have hnone : cells.find? (fun c => c.1 = nxt) = none := by
    apply List.find?_eq_none.mpr
    intro c hc
    have := hwf c hc
    simp only at this
    simp [Nat.ne_of_lt this]
  rw [hnone]
  simp [List.find?]

/-- Allocation leaves every previously valid pointer's content unchanged. -/
theorem Heap.alloc_get_old (h : Heap) (d : Dict) (q : Nat) (hq : q < h.next) :
    (h.alloc d).2.get q = h.get q := by
  obtain ⟨cells, nxt⟩ := h
  simp only [Heap.alloc, Heap.get, listFind?_append]
  simp only at hq
  cases hf : cells.find? (fun c => c.1 = q) with
  | some c => rfl
  | none =>
      have hne : ¬ nxt = q := fun h => Nat.ne_of_lt hq h.symm
      simp [List.find?, hne]

/-- Allocation preserves heap well-formedness. -/
theorem Heap.alloc_WF (h : Heap) (d : Dict) (hwf : h.WF) : (h.alloc d).2.WF := by
  intro c hc
  obtain ⟨cells, nxt⟩ := h
  simp only [Heap.alloc] at hc ⊢
  rcases List.mem_append.mp hc with h1 | h1
  · exact Nat.lt_succ_of_lt (hwf c h1)
  · simp only [List.mem_singleton] at h1
    simp [h1]

/-- Allocation keeps old pointers live. -/
theorem Heap.alloc_Alloc (h : Heap) (d : Dict) (q : Nat) (hq : h.Alloc q) :
    (h.alloc d).2.Alloc q := by
  obtain ⟨c, hc, hcp⟩ := hq
  exact ⟨c, List.mem_append_left _ hc, hcp⟩

/-- A valid pointer is strictly below the counter. -/
theorem Heap.Alloc.lt (h : Heap) (q : Nat) (hwf : h.WF) (hq : h.Alloc q) : q < h.next := by
  obtain ⟨c, hc, hcp⟩ := hq
  exact hcp ▸ hwf c hc

/-- Reading an overlaid dictionary without assumptions on the overlay: the
*last* assignment for the key wins, the base is read when the overlay
never binds the key. -/
theorem dictOverlay_find_last :
    ∀ (src d : Dict) (k : String),
      dictGet (dictOverlay d src) k =
        (match assocFind src.reverse k with
         | some v => some v
         | none => dictGet d k) := by
  intro src
  induction src with
  | nil => intro d k; rfl
  | cons a t ih =>
      intro d k
      rw [dictOverlay_cons, ih (dictSet d a.1 a.2) k, List.reverse_cons]
      cases hf : assocFind t.reverse k with
      | some v => rw [assocFind_append, hf]
      | none =>
          rw [assocFind_append, hf]
          by_cases h1 : a.1 = k
          · simp [assocFind, h1, dictGet, dictSet, assocFind_assocSet]
          · simp [assocFind, h1, dictGet, dictSet, assocFind_assocSet]

/-- A cache hit in the profile loop: the step returns the two cached
dictionary pointers verbatim, keeps the vocabulary it already had, and
leaves the process-wide state (heap, cache, stack, fetch log, warnings)
untouched. -/
theorem step_cacheHit (env : ExtEnv) (pg : ProfileGlobals) (r : PRRes) (prof : String)
    (tp np : Nat)
    (hg : prof ≠ GRDDL_PROFILE) (hs : pg.stack.contains prof = false)
    (hc : assocFind pg.cache prof = some (tp, np)) :
    profileReadStep env pg r prof = .ok (pg, { r with termsPtr := tp, nsPtr := np }) := by
  obtain ⟨hh, hcache, hstack, hlog, hw⟩ := pg
  simp only [profileReadStep]
  rw [if_neg hg]
  rw [if_neg (by simp_all)]
  simp only at hc
  simp only [hc]
  simp [dropLast_append_one]

/-- A cache miss with a successfully fetched and parsed profile document:
the step mutates the two dictionaries in place (overlaying the extracted
assignments), stores the pointer pair in the cache, logs the fetch, pops
the stack back and settles the vocabulary. -/
theorem step_cacheMiss (env : ExtEnv) (pg : ProfileGlobals) (r : PRRes) (prof : String)
    (g : Graph)
    (hg : prof ≠ GRDDL_PROFILE) (hs : pg.stack.contains prof = false)
    (hc : assocFind pg.cache prof = none) (hok : get_graph env prof = .ok g) :
    profileReadStep env pg r prof =
      .ok (⟨(pg.heap.set r.termsPtr
               (dictOverlay (pg.heap.get r.termsPtr) (findTermsList g "term" id).1)).set r.nsPtr
              (dictOverlay ((pg.heap.set r.termsPtr
                  (dictOverlay (pg.heap.get r.termsPtr) (findTermsList g "term" id).1)).get r.nsPtr)
                (findTermsList g "prefix" env.quoteURI).1),
            assocSet pg.cache prof (r.termsPtr, r.nsPtr),
            pg.stack,
            pg.fetchLog ++ [prof],
            pg.warns ++ (vocResult g r.vocabulary).2 ++ (findTermsList g "term" id).2
              ++ (findTermsList g "prefix" env.quoteURI).2⟩,
           { r with vocabulary := (vocResult g r.vocabulary).1 }) := by
  obtain ⟨hh, hcache, hstack, hlog, hw⟩ := pg
  simp only [profileReadStep]
  rw [if_neg hg]
  rw [if_neg (by simp_all)]
  simp only at hc
  simp only [hc, hok]
  simp [dropLast_append_one]

/-! ## Concrete counterexample environment: profile A defines term `aterm`
and a vocabulary, profile B defines term `bterm`; both served as Turtle. -/

/-- Profile URI A. -/
def cexProfA : String := "http://ex.org/A"

/-- Profile URI B. -/
def cexProfB : String := "http://ex.org/B"

/-- The graph of profile A. -/
def cexGraphA : Graph :=
  [(.uriref "http://ex.org/A#s1", "term", .literal "aterm"),
   (.uriref "http://ex.org/A#s1", "uri", .uriref "http://ex.org/A#a-uri"),
   (.uriref "http://ex.org/A", "vocabulary", .uriref "http://ex.org/Avoc")]

/-- The graph of profile B. -/
def cexGraphB : Graph :=
  [(.uriref "http://ex.org/B#s1", "term", .literal "bterm"),
   (.uriref "http://ex.org/B#s1", "uri", .uriref "http://ex.org/B#b-uri")]

/-- The environment serving the two profiles. -/
def cexEnv : ExtEnv :=
  { urljoin := fun b v => b ++ v
    quoteURI := id
    fetch := fun u =>
      if u = cexProfA then .ok ⟨mtTurtle, "docA"⟩
      else if u = cexProfB then .ok ⟨mtTurtle, "docB"⟩
      else .error "404"
    parseTurtle := fun d =>
      if d = "docA" then some cexGraphA
      else if d = "docB" then some cexGraphB
      else none
    parseRDFXML := fun _ => none
    parseNT := fun _ => none
    parseRDFa := fun _ => none }

/-- A fresh process state. -/
def cexPG0 : ProfileGlobals := ⟨⟨[], 0⟩, [], [], [], []⟩

/-- The process state after the first document resolved profile A once:
its two dictionaries live at pointers 0 and 1, the cache maps A to them,
and A was fetched once. -/
def cexPG1 : ProfileGlobals :=
  ⟨⟨[(0, [("aterm", "http://ex.org/A#a-uri")]), (1, [])], 2⟩,
   [(cexProfA, (0, 1))], [], [cexProfA], []⟩

/-- C1 as stated is false: the profile cache stores only the (terms,
prefixes) pair, not the vocabulary.  Resolving A the first time yields
vocabulary `http://ex.org/Avoc`; resolving A again (served from the cache,
with no new fetch, as the unchanged fetch log shows) yields vocabulary
None instead of the cached document's vocabulary. -/
theorem C1_counterexample_vocabulary_not_reproduced :
    profileRead cexEnv cexPG0 "1.1" [cexProfA] =
      .ok (cexPG1, ⟨0, 1, some "http://ex.org/Avoc"⟩) ∧
    (match profileRead cexEnv cexPG1 "1.1" [cexProfA] with
     | .ok (pg2, r2) => some (r2.vocabulary, pg2.fetchLog)
     | .error _ => none) = some (none, [cexProfA]) := by
  constructor
  · rfl
  · rfl

/-- C1 amended: after the first successful resolution of a profile URI the
process-wide cache holds the computed (terms, prefixes) dictionary pair —
the vocabulary is not cached — and a later resolution of the same URI
anywhere returns exactly that cached pair (by reference) without fetching
again, leaving the vocabulary whatever it already was: the profile-derived
vocabulary is not reproduced from the cache on the repeat resolution. -/
theorem C1_profile_cache_amended (env : ExtEnv) (pg : ProfileGlobals) (r : PRRes)
    (prof : String) (tp np : Nat) (g : Graph)
    (hg : prof ≠ GRDDL_PROFILE) (hs : pg.stack.contains prof = false) :
    (assocFind pg.cache prof = some (tp, np) →
       profileReadStep env pg r prof = .ok (pg, { r with termsPtr := tp, nsPtr := np })) ∧
    (assocFind pg.cache prof = none → get_graph env prof = .ok g →
       ∃ pg', profileReadStep env pg r prof =
                .ok (pg', { r with vocabulary := (vocResult g r.vocabulary).1 }) ∧
         assocFind pg'.cache prof = some (r.termsPtr, r.nsPtr) ∧
         pg'.fetchLog = pg.fetchLog ++ [prof] ∧ pg'.stack = pg.stack) := by
  constructor
  · intro hc
    exact step_cacheHit env pg r prof tp np hg hs hc
  · intro hc hok
    refine ⟨_, step_cacheMiss env pg r prof g hg hs hc hok, ?_, rfl, rfl⟩
    simp [assocFind_assocSet]

/-- Witness for C1: a cache hit on A returns the cached pointer pair (0, 1)
without touching globals or the vocabulary it already had, and the first
(miss) resolution stores the pair into the cache while logging the fetch. -/
theorem C1_witness :
    (cexProfA ≠ GRDDL_PROFILE ∧ cexPG1.stack.contains cexProfA = false ∧
      assocFind cexPG1.cache cexProfA = some (0, 1) ∧
      assocFind cexPG0.cache cexProfA = none ∧ get_graph cexEnv cexProfA = .ok cexGraphA) ∧
    profileReadStep cexEnv cexPG1 ⟨7, 8, some "keep"⟩ cexProfA =
      .ok (cexPG1, ⟨0, 1, some "keep"⟩) ∧
    (match profileReadStep cexEnv cexPG0 ⟨0, 1, none⟩ cexProfA with
     | .ok (pg', r') => some (assocFind pg'.cache cexProfA, pg'.fetchLog, r'.vocabulary)
     | .error _ => none) =
      some (some (0, 1), [cexProfA], some "http://ex.org/Avoc") := by
  have h1 := (C1_profile_cache_amended cexEnv cexPG1 ⟨7, 8, some "keep"⟩ cexProfA 0 1 cexGraphA
    (by decide) (by decide)).1 (by decide)
  obtain ⟨pg', hstep, hcache, hlog, hstack⟩ :=
    (C1_profile_cache_amended cexEnv cexPG0 ⟨0, 1, none⟩ cexProfA 0 1 cexGraphA
      (by decide) (by decide)).2 (by decide) (by rfl)
  refine ⟨⟨by decide, by decide, by decide, by decide, by rfl⟩, h1, ?_⟩
  rw [hstep]
  simp only [hcache, hlog]
  rfl

/-- The two allocations at the head of ProfileRead.__init__
(`self.terms = {}` and `self.ns = {}`). -/
def profileReadInit (pg : ProfileGlobals) : ProfileGlobals × PRRes :=
  let a1 := pg.heap.alloc []
  let a2 := a1.2.alloc []
  ({ pg with heap := a2.2 }, ⟨a1.1, a2.1, none⟩)

/-- C2 as stated is false on the cache-hit path: with profile A already
cached, a document listing `profile="A B"` processes B first (reversed
order), B contributes the non-colliding term `bterm`, then A is answered
from the cache — and the cached pair replaces the accumulated
dictionaries wholesale, so `bterm` is lost from the final terms instead
of being preserved. -/
theorem C2_counterexample_cache_hit_discards :
    profileRead cexEnv cexPG0 "1.1" [cexProfA] =
      .ok (cexPG1, ⟨0, 1, some "http://ex.org/Avoc"⟩) ∧
    (match profileRead cexEnv cexPG1 "1.1" [cexProfA, cexProfB] with
     | .ok (pg, r) =>
         some (dictGet (pg.heap.get r.termsPtr) "bterm",
               dictGet (pg.heap.get r.termsPtr) "aterm")
     | .error _ => none) = some (none, some "http://ex.org/A#a-uri") := by
  constructor
  · rfl
  · rfl

/-- C2 amended: the profile list is processed in reversed order (rightmost
first) starting from two fresh empty dictionaries; on every cache miss the
profile's extracted bindings are overlaid onto the accumulating terms and
prefix dictionaries in place — earlier non-colliding bindings are
preserved and colliding keys are overwritten by the later-processed
(leftward) profile; but when a profile is answered from the cache, the
cached dictionary pair replaces the accumulated pair wholesale, discarding
earlier-processed profiles' non-colliding bindings. -/
theorem C2_profile_list_amended (env : ExtEnv) (pg : ProfileGlobals) (r : PRRes)
    (ver : String) (profs : List String) (prof : String) (tp np : Nat) (g : Graph)
    (hg : prof ≠ GRDDL_PROFILE) (hs : pg.stack.contains prof = false)
    (hne : r.termsPtr ≠ r.nsPtr)
    (hat : pg.heap.Alloc r.termsPtr) (han : pg.heap.Alloc r.nsPtr) :
    (pyStrLt ver "1.1" = false → pg.heap.WF →
       profileRead env pg ver profs =
         profileLoop env profs.reverse (profileReadInit pg).1 (profileReadInit pg).2 ∧
       (profileReadInit pg).1.heap.get (profileReadInit pg).2.termsPtr = [] ∧
       (profileReadInit pg).1.heap.get (profileReadInit pg).2.nsPtr = [] ∧
       (profileReadInit pg).2.vocabulary = none) ∧
    (assocFind pg.cache prof = none → get_graph env prof = .ok g →
       ∃ pg', profileReadStep env pg r prof =
                .ok (pg', { r with vocabulary := (vocResult g r.vocabulary).1 }) ∧
         pg'.heap.get r.termsPtr =
           dictOverlay (pg.heap.get r.termsPtr) (findTermsList g "term" id).1 ∧
         pg'.heap.get r.nsPtr =
           dictOverlay (pg.heap.get r.nsPtr) (findTermsList g "prefix" env.quoteURI).1 ∧
         (∀ k w, dictGet (pg.heap.get r.termsPtr) k = some w →
            k ∉ ((findTermsList g "term" id).1).map Prod.fst →
            dictGet (pg'.heap.get r.termsPtr) k = some w) ∧
         (∀ k w, assocFind ((findTermsList g "term" id).1).reverse k = some w →
            dictGet (pg'.heap.get r.termsPtr) k = some w)) ∧
    (assocFind pg.cache prof = some (tp, np) →
       profileReadStep env pg r prof = .ok (pg, { r with termsPtr := tp, nsPtr := np })) := by
  refine ⟨?_, ?_, ?_⟩
  · intro h11 hwf
    refine ⟨?_, ?_, ?_, rfl⟩
    · simp only [profileRead, profileReadInit]
      rw [if_neg (by simp [h11])]
    · show ((pg.heap.alloc []).2.alloc []).2.get (pg.heap.alloc []).1 = []
      rw [Heap.alloc_get_old]
      · exact Heap.alloc_get_new pg.heap [] hwf
      · show (pg.heap.alloc []).1 < (pg.heap.alloc []).2.next
        simp [Heap.alloc]
    · exact Heap.alloc_get_new _ [] (Heap.alloc_WF pg.heap [] hwf)
  · intro hc hok
    refine ⟨_, step_cacheMiss env pg r prof g hg hs hc hok, ?_, ?_, ?_, ?_⟩
    case refine_1 =>
      show ((pg.heap.set r.termsPtr _).set r.nsPtr _).get r.termsPtr = _
      rw [Heap.get_set_ne _ _ _ _ hne]
      exact Heap.get_set_self _ _ _ hat
    case refine_2 =>
      show ((pg.heap.set r.termsPtr _).set r.nsPtr _).get r.nsPtr = _
      rw [Heap.get_set_self _ _ _ ((Heap.set_Alloc _ _ _ _).mpr han)]
      rw [Heap.get_set_ne _ _ _ _ (Ne.symm hne)]
    case refine_3 =>
      intro k w hk hknot
      have hterms :
          ((pg.heap.set r.termsPtr
              (dictOverlay (pg.heap.get r.termsPtr) (findTermsList g "term" id).1)).set r.nsPtr
            (dictOverlay ((pg.heap.set r.termsPtr
                (dictOverlay (pg.heap.get r.termsPtr) (findTermsList g "term" id).1)).get r.nsPtr)
              (findTermsList g "prefix" env.quoteURI).1)).get r.termsPtr =
            dictOverlay (pg.heap.get r.termsPtr) (findTermsList g "term" id).1 := by
        rw [Heap.get_set_ne _ _ _ _ hne]
        exact Heap.get_set_self _ _ _ hat
      rw [hterms, dictOverlay_find_last]
      have hnone : assocFind ((findTermsList g "term" id).1).reverse k = none := by
        apply assocFind_eq_none
        rw [List.map_reverse, List.mem_reverse]
        exact hknot
      rw [hnone]
      exact hk
    case refine_4 =>
      intro k w hk
      have hterms :
          ((pg.heap.set r.termsPtr
              (dictOverlay (pg.heap.get r.termsPtr) (findTermsList g "term" id).1)).set r.nsPtr
            (dictOverlay ((pg.heap.set r.termsPtr
                (dictOverlay (pg.heap.get r.termsPtr) (findTermsList g "term" id).1)).get r.nsPtr)
              (findTermsList g "prefix" env.quoteURI).1)).get r.termsPtr =
            dictOverlay (pg.heap.get r.termsPtr) (findTermsList g "term" id).1 := by
        rw [Heap.get_set_ne _ _ _ _ hne]
        exact Heap.get_set_self _ _ _ hat
      rw [hterms, dictOverlay_find_last, hk]
  · intro hc
    exact step_cacheHit env pg r prof tp np hg hs hc

/-- Witness for C2 amended, over the concrete two-profile environment:
the run on `[A, B]` is the loop over the reversed list `[B, A]`; the miss
on B overlays `bterm` onto the accumulated dictionary while keeping the
non-colliding `aterm`; the hit on A replaces the instance's pointer pair
`(1, 0)` wholesale by the cached `(0, 1)`. -/
theorem C2_witness :
    (cexProfB ≠ GRDDL_PROFILE ∧ cexPG1.stack.contains cexProfB = false ∧
      (0 : Nat) ≠ 1 ∧ assocFind cexPG1.cache cexProfB = none ∧
      get_graph cexEnv cexProfB = .ok cexGraphB ∧
      assocFind cexPG1.cache cexProfA = some (0, 1) ∧
      pyStrLt "1.1" "1.1" = false) ∧
    profileRead cexEnv cexPG1 "1.1" [cexProfA, cexProfB] =
      profileLoop cexEnv [cexProfB, cexProfA]
        (profileReadInit cexPG1).1 (profileReadInit cexPG1).2 ∧
    (match profileReadStep cexEnv cexPG1 ⟨0, 1, none⟩ cexProfB with
     | .ok (pg', r') =>
         some (dictGet (pg'.heap.get 0) "aterm", dictGet (pg'.heap.get 0) "bterm",
               r'.vocabulary)
     | .error _ => none) =
      some (some "http://ex.org/A#a-uri", some "http://ex.org/B#b-uri", none) ∧
    profileReadStep cexEnv cexPG1 ⟨1, 0, some "acc"⟩ cexProfA =
      .ok (cexPG1, ⟨0, 1, some "acc"⟩) := by
  have hwf : cexPG1.heap.WF :=
    (by decide : ∀ c ∈ cexPG1.heap.cells, c.1 < cexPG1.heap.next)
  have hat0 : cexPG1.heap.Alloc 0 :=
    ⟨(0, [("aterm", "http://ex.org/A#a-uri")]), by decide, rfl⟩
  have hat1 : cexPG1.heap.Alloc 1 := ⟨(1, []), by decide, rfl⟩
  have hrev :=
    ((C2_profile_list_amended cexEnv cexPG1 ⟨0, 1, none⟩ "1.1" [cexProfA, cexProfB]
        cexProfB 0 1 cexGraphB (by decide) (by decide) (by decide) hat0 hat1).1
      (by decide) hwf).1
  obtain ⟨pg', hstep, ht, hn, hpres, hover⟩ :=
    (C2_profile_list_amended cexEnv cexPG1 ⟨0, 1, none⟩ "1.1" [cexProfA, cexProfB]
        cexProfB 0 1 cexGraphB (by decide) (by decide) (by decide) hat0 hat1).2.1
      (by decide) (by rfl)
  have hhit :=
    (C2_profile_list_amended cexEnv cexPG1 ⟨1, 0, some "acc"⟩ "1.1" [cexProfA, cexProfB]
        cexProfA 0 1 cexGraphB (by decide) (by decide) (by decide) hat1 hat0).2.2
      (by decide)
  refine ⟨⟨by decide, by decide, by decide, by decide, by rfl, by decide, by decide⟩,
          hrev, ?_, hhit⟩
  rw [hstep]
  simp only [ht]
  rfl

/-- All dictionary pointers stored in the profile cache. -/
def cachePtrsL (cache : List (String × (Nat × Nat))) : List Nat :=
  cache.foldr (fun c acc => c.2.1 :: c.2.2 :: acc) []

/-- A cache lookup's pointers are cache pointers. -/
theorem cachePtrsL_of_find :
    ∀ (cache : List (String × (Nat × Nat))) (prof : String) (v : Nat × Nat),
      assocFind cache prof = some v → v.1 ∈ cachePtrsL cache ∧ v.2 ∈ cachePtrsL cache := by
  intro cache
  induction cache with
  | nil => intro prof v h; cases h
  | cons c t ih =>
      intro prof v h
      by_cases hc : c.1 = prof
      · simp only [assocFind, if_pos hc] at h
        cases h
        simp [cachePtrsL]
      · simp only [assocFind, if_neg hc] at h
        have := ih prof v h
        simp only [cachePtrsL, List.foldr_cons, List.mem_cons]
        exact ⟨Or.inr (Or.inr this.1), Or.inr (Or.inr this.2)⟩

/-- A pointer of the cache after an assignment is an old cache pointer or
one of the assigned pair. -/
theorem cachePtrsL_assocSet :
    ∀ (cache : List (String × (Nat × Nat))) (prof : String) (v : Nat × Nat) (p : Nat),
      p ∈ cachePtrsL (assocSet cache prof v) →
      p ∈ cachePtrsL cache ∨ p = v.1 ∨ p = v.2 := by
  intro cache
  induction cache with
  | nil =>
      intro prof v p h
      simp only [assocSet, cachePtrsL, List.foldr_cons, List.foldr_nil, List.mem_cons,
        List.not_mem_nil, or_false] at h
      rcases h with h | h
      · exact Or.inr (Or.inl h)
      · exact Or.inr (Or.inr h)
  | cons c t ih =>
      intro prof v p h
      by_cases hc : c.1 = prof
      · simp only [assocSet, if_pos hc, cachePtrsL, List.foldr_cons, List.mem_cons] at h ⊢
        rcases h with h | h | h
        · exact Or.inr (Or.inl h)
        · exact Or.inr (Or.inr h)
        · exact Or.inl (Or.inr (Or.inr h))
      · simp only [assocSet, if_neg hc, cachePtrsL, List.foldr_cons, List.mem_cons] at h ⊢
        rcases h with h | h | h
        · exact Or.inl (Or.inl h)
        · exact Or.inl (Or.inr (Or.inl h))
        · rcases ih prof v p h with h2 | h2
          · exact Or.inl (Or.inr (Or.inr h2))
          · exact Or.inr h2

/-- A step that raises a fetch/parse error returns exactly that error. -/
theorem step_fetchError (env : ExtEnv) (pg : ProfileGlobals) (r : PRRes) (prof : String)
    (e : FailedProfile)
    (hg : prof ≠ GRDDL_PROFILE) (hs : pg.stack.contains prof = false)
    (hc : assocFind pg.cache prof = none) (herr : get_graph env prof = .error e) :
    profileReadStep env pg r prof = .error e := by
  obtain ⟨hh, hcache, hstack, hlog, hw⟩ := pg
  simp only [profileReadStep]
  rw [if_neg hg]
  rw [if_neg (by simp_all)]
  simp only at hc
  simp only [hc, herr]

/-- A step on a URI already on the resolution stack is a silent no-op. -/
theorem step_cycle (env : ExtEnv) (pg : ProfileGlobals) (r : PRRes) (prof : String)
    (hs : pg.stack.contains prof = true) :
    profileReadStep env pg r prof = .ok (pg, r) := by
  by_cases hg : prof = GRDDL_PROFILE
  · simp [profileReadStep, hg]
  · unfold profileReadStep
    rw [if_neg hg, if_pos hs]

/-- One loop step cannot disturb a protected pointer: a pointer below the
allocation counter, outside the cache and different from the instance's
two pointers keeps its content, and stays protected. -/
theorem profileReadStep_preserves (env : ExtEnv) (pg : ProfileGlobals) (r : PRRes)
    (prof : String) (pg' : ProfileGlobals) (r' : PRRes) (q : Nat)
    (hstep : profileReadStep env pg r prof = .ok (pg', r'))
    (hwf : pg.heap.WF) (hq : q < pg.heap.next) (hqc : q ∉ cachePtrsL pg.cache)
    (hqt : q ≠ r.termsPtr) (hqn : q ≠ r.nsPtr) :
    pg'.heap.get q = pg.heap.get q ∧ pg'.heap.WF ∧ pg.heap.next ≤ pg'.heap.next ∧
      q < pg'.heap.next ∧ q ∉ cachePtrsL pg'.cache ∧ q ≠ r'.termsPtr ∧ q ≠ r'.nsPtr := by
  by_cases hg : prof = GRDDL_PROFILE
  · rw [hg, profileReadStep_grddl] at hstep
    cases hstep
    exact ⟨rfl, hwf, Nat.le_refl _, hq, hqc, hqt, hqn⟩
  · cases hson : pg.stack.contains prof with
    | true =>
        rw [step_cycle env pg r prof hson] at hstep
        cases hstep
        exact ⟨rfl, hwf, Nat.le_refl _, hq, hqc, hqt, hqn⟩
    | false =>
        cases hcf : assocFind pg.cache prof with
        | some ptrs =>
            rw [step_cacheHit env pg r prof ptrs.1 ptrs.2 hg hson (by rw [hcf])] at hstep
            cases hstep
            have hmem := cachePtrsL_of_find pg.cache prof ptrs hcf
            exact ⟨rfl, hwf, Nat.le_refl _, hq, hqc,
                   fun h => hqc (h ▸ hmem.1), fun h => hqc (h ▸ hmem.2)⟩
        | none =>
            cases hgg : get_graph env prof with
            | error e =>
                rw [step_fetchError env pg r prof e hg hson hcf hgg] at hstep
                cases hstep
            | ok g =>
                rw [step_cacheMiss env pg r prof g hg hson hcf hgg] at hstep
                cases hstep
                refine ⟨?_, ?_, Nat.le_refl _, hq, ?_, hqt, hqn⟩
                · show ((pg.heap.set r.termsPtr _).set r.nsPtr _).get q = pg.heap.get q
                  rw [Heap.get_set_ne _ _ _ _ hqn, Heap.get_set_ne _ _ _ _ hqt]
                · exact Heap.set_WF _ _ _ (Heap.set_WF _ _ _ hwf)
                · intro hmem
                  rcases cachePtrsL_assocSet pg.cache prof (r.termsPtr, r.nsPtr) q hmem
                    with h2 | h2 | h2
                  · exact hqc h2
                  · exact hqt h2
                  · exact hqn h2

/-- The whole loop cannot disturb a protected pointer. -/
theorem profileLoop_preserves (env : ExtEnv) :
    ∀ (l : List String) (pg : ProfileGlobals) (r : PRRes)
      (pg' : ProfileGlobals) (r' : PRRes) (q : Nat),
      profileLoop env l pg r = .ok (pg', r') →
      pg.heap.WF → q < pg.heap.next → q ∉ cachePtrsL pg.cache →
      q ≠ r.termsPtr → q ≠ r.nsPtr →
      pg'.heap.get q = pg.heap.get q ∧ pg'.heap.WF ∧ pg.heap.next ≤ pg'.heap.next ∧
        q < pg'.heap.next ∧ q ∉ cachePtrsL pg'.cache ∧ q ≠ r'.termsPtr ∧ q ≠ r'.nsPtr := by
  intro l
  induction l with
  | nil =>
      intro pg r pg' r' q hloop hwf hq hqc hqt hqn
      cases hloop
      exact ⟨rfl, hwf, Nat.le_refl _, hq, hqc, hqt, hqn⟩
  | cons p t ih =>
      intro pg r pg' r' q hloop hwf hq hqc hqt hqn
      simp only [profileLoop] at hloop
      cases hst : profileReadStep env pg r p with
      | error e =>
          rw [hst] at hloop
          cases hloop
      | ok s1 =>
          rw [hst] at hloop
          obtain ⟨e1, e2, e3, e4, e5, e6, e7⟩ :=
            profileReadStep_preserves env pg r p s1.1 s1.2 q
              (by rw [hst]) hwf hq hqc hqt hqn
          obtain ⟨f1, f2, f3, f4, f5, f6, f7⟩ :=
            ih s1.1 s1.2 pg' r' q hloop e2 e4 e5 e6 e7
          exact ⟨f1.trans e1, f2, Nat.le_trans e3 f3, f4, f5, f6, f7⟩

/-- ProfileRead as a whole cannot disturb a protected pointer, and its
instance's dictionary pointers never coincide with one. -/
theorem profileRead_preserves (env : ExtEnv) (pg : ProfileGlobals) (ver : String)
    (profs : List String) (pg1 : ProfileGlobals) (rv : PRRes) (q : Nat)
    (hpr : profileRead env pg ver profs = .ok (pg1, rv))
    (hwf : pg.heap.WF) (hq : q < pg.heap.next) (hqc : q ∉ cachePtrsL pg.cache) :
    pg1.heap.get q = pg.heap.get q ∧ pg1.heap.WF ∧ q < pg1.heap.next ∧
      q ∉ cachePtrsL pg1.cache ∧ q ≠ rv.termsPtr ∧ q ≠ rv.nsPtr := by
  have hget0 : (((pg.heap.alloc []).2.alloc []).2).get q = pg.heap.get q := by
    rw [Heap.alloc_get_old _ _ _ (by
      show q < (pg.heap.alloc []).2.next
      exact Nat.lt_succ_of_lt hq)]
    exact Heap.alloc_get_old _ _ _ hq
  have hwf2 : (((pg.heap.alloc []).2.alloc []).2).WF :=
    Heap.alloc_WF _ _ (Heap.alloc_WF _ _ hwf)
  have hq2 : q < (((pg.heap.alloc []).2.alloc []).2).next := by
    show q < pg.heap.next + 1 + 1
    omega
  have hqt0 : q ≠ (pg.heap.alloc []).1 := Nat.ne_of_lt hq
  have hqn0 : q ≠ ((pg.heap.alloc []).2.alloc []).1 := by
    show q ≠ pg.heap.next + 1
    omega
  unfold profileRead at hpr
  by_cases hv : pyStrLt ver "1.1" = true
  · rw [if_pos hv] at hpr
    cases hpr
    exact ⟨hget0, hwf2, hq2, hqc, hqt0, hqn0⟩
  · rw [if_neg (by simp [hv])] at hpr
    obtain ⟨f1, f2, f3, f4, f5, f6, f7⟩ :=
      profileLoop_preserves env profs.reverse _ _ pg1 rv q hpr hwf2 hq2 hqc hqt0 hqn0
    exact ⟨f1.trans hget0, f2, f4, f5, f6, f7⟩

/-- A content type the dispatch of `_get_graph` recognizes. -/
def recognizedMT (ct : String) : Bool :=
  (ct = mtTurtle) || (ct = mtRdfxml) || (ct = mtNt) || (ct = mtXhtml) || (ct = mtHtml)
    || (ct = mtXml) || xmlAppMediaType ct

/-- Every error raised by `_get_graph` carries the profile URI. -/
theorem get_graph_error_carries_uri (env : ExtEnv) (name : String) (e : FailedProfile)
    (h : get_graph env name = .error e) : e.uri = name := by
  unfold get_graph at h
  cases hf : env.fetch name with
  | error msg =>
      simp only [hf] at h
      cases h
      rfl
  | ok content =>
      simp only [hf] at h
      by_cases h1 : content.content_type = mtTurtle
      · rw [if_pos h1] at h
        cases hp : env.parseTurtle content.data with
        | some g => rw [hp] at h; cases h
        | none => rw [hp] at h; cases h; rfl
      · rw [if_neg h1] at h
        by_cases h2 : content.content_type = mtRdfxml
        · rw [if_pos h2] at h
          cases hp : env.parseRDFXML content.data with
          | some g => rw [hp] at h; cases h
          | none => rw [hp] at h; cases h; rfl
        · rw [if_neg h2] at h
          by_cases h3 : content.content_type = mtNt
          · rw [if_pos h3] at h
            cases hp : env.parseNT content.data with
            | some g => rw [hp] at h; cases h
            | none => rw [hp] at h; cases h; rfl
          · rw [if_neg h3] at h
            by_cases h4 : (content.content_type = mtXhtml || content.content_type = mtHtml
                || content.content_type = mtXml || xmlAppMediaType content.content_type) = true
            · rw [if_pos h4] at h
              cases hp : env.parseRDFa content.data with
              | some g => rw [hp] at h; cases h
              | none => rw [hp] at h; cases h; rfl
            · rw [if_neg h4] at h
              cases h
              rfl

/-- Error propagation through the profile loop: once a step raises, the
whole loop raises that error. -/
theorem profileLoop_append_error (env : ExtEnv) :
    ∀ (l1 : List String) (pg : ProfileGlobals) (r : PRRes) (s : ProfileGlobals × PRRes)
      (prof : String) (l2 : List String) (e : FailedProfile),
      profileLoop env l1 pg r = .ok s → profileReadStep env s.1 s.2 prof = .error e →
      profileLoop env (l1 ++ prof :: l2) pg r = .error e := by
  intro l1
  induction l1 with
  | nil =>
      intro pg r s prof l2 e hok hstep
      cases hok
      simp only at hstep
      simp only [List.nil_append, profileLoop, hstep]
  | cons p t ih =>
      intro pg r s prof l2 e hok hstep
      simp only [profileLoop] at hok ⊢
      cases hst : profileReadStep env pg r p with
      | error e2 =>
          rw [hst] at hok
          cases hok
      | ok s1 =>
          rw [hst] at hok
          exact ih s1.1 s1.2 s prof l2 e hok hstep

/-- C8: profile failure handling is two-tier.  A document that cannot be
dereferenced, cannot be parsed (in any of the four decodings) or has an
unrecognized content type makes `_get_graph` raise FailedProfile carrying
the offending profile URI, and a raised error aborts the remaining
resolution loop; whereas a URI already on the active resolution stack is
silently skipped, contributing nothing. -/
theorem C8_profile_failure_two_tier (env : ExtEnv) (name msg : String) (content : Content)
    (pg : ProfileGlobals) (r : PRRes) (prof : String) (e : FailedProfile)
    (l1 l2 : List String) (s : ProfileGlobals × PRRes) :
    (get_graph env name = .error e → e.uri = name) ∧
    (env.fetch name = .error msg →
       get_graph env name =
         .error ⟨"Profile document " ++ name ++ " could not be dereferenced (" ++ msg ++ ")",
                 name⟩) ∧
    (env.fetch name = .ok content → content.content_type = mtTurtle →
       env.parseTurtle content.data = none →
       get_graph env name = .error ⟨"Could not parse Turtle content at " ++ name, name⟩) ∧
    (env.fetch name = .ok content → content.content_type = mtRdfxml →
       env.parseRDFXML content.data = none →
       get_graph env name = .error ⟨"Could not parse RDF/XML content at " ++ name, name⟩) ∧
    (env.fetch name = .ok content → content.content_type = mtNt →
       env.parseNT content.data = none →
       get_graph env name = .error ⟨"Could not parse N-Triple content at " ++ name, name⟩) ∧
    (env.fetch name = .ok content →
       (content.content_type = mtXhtml ∨ content.content_type = mtHtml ∨
        content.content_type = mtXml ∨ xmlAppMediaType content.content_type = true) →
       content.content_type ≠ mtTurtle → content.content_type ≠ mtRdfxml →
       content.content_type ≠ mtNt →
       env.parseRDFa content.data = none →
       get_graph env name = .error ⟨"Could not parse RDFa content at " ++ name, name⟩) ∧
    (env.fetch name = .ok content → recognizedMT content.content_type = false →
       get_graph env name =
         .error ⟨"Unrecognized media type for the vocabulary file " ++ name ++ ": "
                   ++ content.content_type, name⟩) ∧
    (profileLoop env l1 pg r = .ok s → profileReadStep env s.1 s.2 prof = .error e →
       profileLoop env (l1 ++ prof :: l2) pg r = .error e) ∧
    (pg.stack.contains prof = true → profileReadStep env pg r prof = .ok (pg, r)) := by
  refine ⟨get_graph_error_carries_uri env name e, ?_, ?_, ?_, ?_, ?_, ?_,
          profileLoop_append_error env l1 pg r s prof l2 e,
          step_cycle env pg r prof⟩
  · intro hf
    unfold get_graph
    simp only [hf]
  · intro hf hct hp
    unfold get_graph
    simp only [hf]
    rw [if_pos hct, hp]
  · intro hf hct hp
    unfold get_graph
    simp only [hf]
    rw [if_neg (by rw [hct]; decide), if_pos hct, hp]
  · intro hf hct hp
    unfold get_graph
    simp only [hf]
    rw [if_neg (by rw [hct]; decide), if_neg (by rw [hct]; decide), if_pos hct, hp]
  · intro hf hor h1 h2 h3 hp
    unfold get_graph
    simp only [hf]
    rw [if_neg h1, if_neg h2, if_neg h3, if_pos (by
      rcases hor with h | h | h | h <;> simp [h]), hp]
  · intro hf hrec
    simp only [recognizedMT, Bool.or_eq_false_iff, decide_eq_false_iff_not] at hrec
    obtain ⟨⟨⟨⟨⟨⟨n1, n2⟩, n3⟩, n4⟩, n5⟩, n6⟩, n7⟩ := hrec
    unfold get_graph
    simp only [hf]
    rw [if_neg n1, if_neg n2, if_neg n3, if_neg (by simp [n4, n5, n6, n7])]

/-- A profile URI the counterexample environment cannot dereference. -/
def cexMissing : String := "http://missing/"

/-- The error its resolution raises. -/
def cexErrM : FailedProfile :=
  ⟨"Profile document http://missing/ could not be dereferenced (404)", "http://missing/"⟩

/-- A process state whose resolution stack already holds profile A. -/
def cexPGcyc : ProfileGlobals := ⟨⟨[], 0⟩, [], [cexProfA], [], []⟩

/-- Witness for C8: the unreachable profile raises a FailedProfile whose
uri field is the offending URI, the raised error aborts a loop that still
had another profile to process, and the cyclic reference to A is silently
skipped. -/
theorem C8_witness :
    (get_graph cexEnv cexMissing = .error cexErrM ∧
      cexEnv.fetch cexMissing = .error "404" ∧
      cexPGcyc.stack.contains cexProfA = true ∧
      profileLoop cexEnv [] cexPG0 ⟨0, 1, none⟩ = .ok (cexPG0, ⟨0, 1, none⟩)) ∧
    cexErrM.uri = cexMissing ∧
    profileReadStep cexEnv cexPGcyc ⟨0, 1, none⟩ cexProfA = .ok (cexPGcyc, ⟨0, 1, none⟩) ∧
    profileLoop cexEnv [cexMissing, cexProfB] cexPG0 ⟨0, 1, none⟩ = .error cexErrM := by
  have happ := C8_profile_failure_two_tier cexEnv cexMissing "404" ⟨mtTurtle, "x"⟩ cexPG0
      ⟨0, 1, none⟩ cexMissing cexErrM [] [cexProfB] (cexPG0, ⟨0, 1, none⟩)
  have happ2 := C8_profile_failure_two_tier cexEnv cexMissing "404" ⟨mtTurtle, "x"⟩ cexPGcyc
      ⟨0, 1, none⟩ cexProfA cexErrM [] [] (cexPG0, ⟨0, 1, none⟩)
  refine ⟨⟨?_, by rfl, by decide, by rfl⟩, happ.1 (by rfl), ?_, ?_⟩
  · exact happ.2.1 (by rfl)
  · exact happ2.2.2.2.2.2.2.2.2 (by decide)
  · exact happ.2.2.2.2.2.2.2.1 (by rfl) (by rfl)

/-- C6: TermOrCurie construction never mutates the inherited instance's
term or namespace dictionaries; when the profiles define no term the child
shares the inherited terms dictionary by reference (the same pointer), and
when the local prefix dictionary comes out empty the child shares the
inherited namespace dictionary by reference; otherwise the freshly
allocated dictionary reads as the inherited one overlaid with the local
bindings (local beats inherited on key collision). -/
theorem C6_inherits_by_reference_without_mutation (env : ExtEnv) (ver base : String)
    (node : TCNode) (i : TermOrCurieRes) (pg : ProfileGlobals) (bn : BnodeSess)
    (pg1 : ProfileGlobals) (rv : PRRes) (pg' : ProfileGlobals) (res : TermOrCurieRes)
    (w : List Warning)
    (hwf : pg.heap.WF)
    (hv1 : i.termsPtr < pg.heap.next) (hv2 : i.nsPtr < pg.heap.next)
    (hc1 : i.termsPtr ∉ cachePtrsL pg.cache) (hc2 : i.nsPtr ∉ cachePtrsL pg.cache)
    (hpr : profileRead env pg ver (profileURIs env ver base node bn) = .ok (pg1, rv))
    (hrun : termOrCurieInit env ver base node (some i) pg bn = .ok (pg', res, w)) :
    (pg'.heap.get i.termsPtr = pg.heap.get i.termsPtr ∧
     pg'.heap.get i.nsPtr = pg.heap.get i.nsPtr) ∧
    (pg1.heap.get rv.termsPtr = [] → res.termsPtr = i.termsPtr) ∧
    ((localNsDict env ver node (pg1.heap.get rv.nsPtr) i.default_curie_uri).1 = [] →
       res.nsPtr = i.nsPtr) ∧
    (pg1.heap.get rv.termsPtr ≠ [] → NodupKeysD (pg1.heap.get rv.termsPtr) →
       NodupKeysD (pg1.heap.get i.termsPtr) →
       ∀ k : String,
         dictGet (pg'.heap.get res.termsPtr) k =
           (match dictGet (pg1.heap.get rv.termsPtr) k with
            | some v => some v
            | none => dictGet (pg1.heap.get i.termsPtr) k)) ∧
    ((localNsDict env ver node (pg1.heap.get rv.nsPtr) i.default_curie_uri).1 ≠ [] →
       NodupKeysD (pg1.heap.get i.nsPtr) →
       ∀ k : String,
         dictGet (pg'.heap.get res.nsPtr) k =
           (match dictGet (localNsDict env ver node (pg1.heap.get rv.nsPtr)
                     i.default_curie_uri).1 k with
            | some v => some v
            | none => dictGet (pg1.heap.get i.nsPtr) k)) := by
  obtain ⟨P1get, Pwf, P1lt, P1c, P1t, P1n⟩ :=
    profileRead_preserves env pg ver _ pg1 rv i.termsPtr hpr hwf hv1 hc1
  obtain ⟨P2get, _, P2lt, _, P2t, P2n⟩ :=
    profileRead_preserves env pg ver _ pg1 rv i.nsPtr hpr hwf hv2 hc2
  simp only [termOrCurieInit, hpr] at hrun
  rw [Except.ok.injEq, Prod.mk.injEq, Prod.mk.injEq] at hrun
  obtain ⟨hX, hY, hZ⟩ := hrun
  subst hX
  subst hY
  subst hZ
  set rvT := pg1.heap.get rv.termsPtr with hrvT
  set ldp := localNsDict env ver node (pg1.heap.get rv.nsPtr) i.default_curie_uri with hldp
  set mT := dictOverlay (dictOverlay [] (pg1.heap.get i.termsPtr)) rvT with hmT
  set ta := if rvT.length = 0 then (i.termsPtr, pg1.heap) else pg1.heap.alloc mT with hta
  set mN := dictOverlay (dictOverlay [] (ta.2.get i.nsPtr)) ldp.1 with hmN
  set na := if ldp.1.length = 0 then (i.nsPtr, ta.2) else ta.2.alloc mN with hna
  have hta_get_t : ta.2.get i.termsPtr = pg1.heap.get i.termsPtr := by
    by_cases hT : rvT.length = 0
    · rw [hta, if_pos hT]
    · rw [hta, if_neg hT]
      exact Heap.alloc_get_old _ _ _ P1lt
  have hta_get_n : ta.2.get i.nsPtr = pg1.heap.get i.nsPtr := by
    by_cases hT : rvT.length = 0
    · rw [hta, if_pos hT]
    · rw [hta, if_neg hT]
      exact Heap.alloc_get_old _ _ _ P2lt
  have hta_lt_t : i.termsPtr < ta.2.next := by
    by_cases hT : rvT.length = 0
    · rw [hta, if_pos hT]
      exact P1lt
    · rw [hta, if_neg hT]
      exact Nat.lt_succ_of_lt P1lt
  have hta_lt_n : i.nsPtr < ta.2.next := by
    by_cases hT : rvT.length = 0
    · rw [hta, if_pos hT]
      exact P2lt
    · rw [hta, if_neg hT]
      exact Nat.lt_succ_of_lt P2lt
  have hta_wf : ta.2.WF := by
    by_cases hT : rvT.length = 0
    · rw [hta, if_pos hT]
      exact Pwf
    · rw [hta, if_neg hT]
      exact Heap.alloc_WF _ _ Pwf
  have hna_get_t : na.2.get i.termsPtr = pg1.heap.get i.termsPtr := by
    by_cases hN : ldp.1.length = 0
    · rw [hna, if_pos hN]
      exact hta_get_t
    · rw [hna, if_neg hN, Heap.alloc_get_old _ _ _ hta_lt_t]
      exact hta_get_t
  have hna_get_n : na.2.get i.nsPtr = pg1.heap.get i.nsPtr := by
    by_cases hN : ldp.1.length = 0
    · rw [hna, if_pos hN]
      exact hta_get_n
    · rw [hna, if_neg hN, Heap.alloc_get_old _ _ _ hta_lt_n]
      exact hta_get_n
  refine ⟨⟨hna_get_t.trans P1get, hna_get_n.trans P2get⟩, ?_, ?_, ?_, ?_⟩
  · intro hB
    show ta.1 = i.termsPtr
    rw [hta, if_pos (by rw [hB]; rfl)]
  · intro hC
    show na.1 = i.nsPtr
    rw [hna, if_pos (by rw [hC]; rfl)]
  · intro hT' hnodrv hnodinh k
    have hTlen : ¬ rvT.length = 0 := by
      intro h0
      exact hT' (List.eq_nil_of_length_eq_zero h0)
    have hget : na.2.get ta.1 = mT := by
      by_cases hN : ldp.1.length = 0
      · rw [hna, if_pos hN, hta, if_neg hTlen]
        exact Heap.alloc_get_new _ _ Pwf
      · rw [hna, if_neg hN, Heap.alloc_get_old _ _ _ (by
          rw [hta, if_neg hTlen]
          exact Nat.lt_succ_self _)]
        rw [hta, if_neg hTlen]
        exact Heap.alloc_get_new _ _ Pwf
    show dictGet (na.2.get ta.1) k = _
    rw [hget, hmT, dictOverlay_find rvT _ k hnodrv]
    cases hfk : dictGet rvT k with
    | some v => rfl
    | none =>
        rw [dictOverlay_find _ [] k hnodinh]
        cases dictGet (pg1.heap.get i.termsPtr) k <;> rfl
  · intro hN' hnodinh k
    have hNlen : ¬ ldp.1.length = 0 := by
      intro h0
      exact hN' (List.eq_nil_of_length_eq_zero h0)
    have hnod_ld : NodupKeysD ldp.1 := by
      rw [hldp]
      exact localNsDict_nodup env ver node (pg1.heap.get rv.nsPtr) i.default_curie_uri
    have hget : na.2.get na.1 = mN := by
      rw [hna, if_neg hNlen]
      exact Heap.alloc_get_new _ _ hta_wf
    show dictGet (na.2.get na.1) k = _
    rw [hget, hmN, hta_get_n, dictOverlay_find ldp.1 _ k hnod_ld]
    cases hfk : dictGet ldp.1 k with
    | some v => rfl
    | none =>
        rw [dictOverlay_find _ [] k hnodinh]
        cases dictGet (pg1.heap.get i.nsPtr) k <;> rfl

/-- An inherited TermOrCurie whose dictionaries live at pointers 0 and 1. -/
def C6i : TermOrCurieRes := ⟨XHTML_URI, 0, 1, none⟩

/-- The process state before construction: the two inherited dictionaries. -/
def C6pg : ProfileGlobals := ⟨⟨[(0, [("k", "V")]), (1, [("p", "P")])], 2⟩, [], [], [], []⟩

/-- A node with no local declarations. -/
def C6node : TCNode := ⟨[]⟩

/-- A node declaring one namespace-style prefix. -/
def C6node2 : TCNode := ⟨[("xmlns:ex", "http://one/")]⟩

/-- The globals after ProfileRead allocated its two empty dictionaries. -/
def C6pg1 : ProfileGlobals :=
  ⟨⟨[(0, [("k", "V")]), (1, [("p", "P")]), (2, []), (3, [])], 4⟩, [], [], [], []⟩

/-- The result of constructing over the declaration-free node: both
pointers shared with the inherited instance. -/
def C6res1 : TermOrCurieRes := ⟨XHTML_URI, 0, 1, none⟩

/-- The globals after constructing over the xmlns-declaring node: a fresh
overlaid namespace dictionary at pointer 4, nothing else touched. -/
def C6pg2 : ProfileGlobals :=
  ⟨⟨[(0, [("k", "V")]), (1, [("p", "P")]), (2, []), (3, []),
     (4, [("p", "P"), ("ex", "http://one/")])], 5⟩, [], [], [], []⟩

/-- The result of constructing over the xmlns-declaring node: terms still
shared, namespaces freshly overlaid at pointer 4. -/
def C6res2 : TermOrCurieRes := ⟨XHTML_URI, 0, 4, none⟩

/-- Witness for C6: over a declaration-free node both dictionaries are
shared by reference with the inherited instance; over a node declaring
`xmlns:ex` the construction leaves the inherited cells untouched and the
fresh namespace dictionary reads as the inherited one overlaid with the
local binding. -/
theorem C6_witness :
    (C6pg.heap.WF ∧
      C6i.termsPtr < C6pg.heap.next ∧ C6i.nsPtr < C6pg.heap.next ∧
      C6i.termsPtr ∉ cachePtrsL C6pg.cache ∧ C6i.nsPtr ∉ cachePtrsL C6pg.cache) ∧
    (C6res1.termsPtr = C6i.termsPtr ∧ C6res1.nsPtr = C6i.nsPtr) ∧
    (C6pg2.heap.get C6i.termsPtr = C6pg.heap.get C6i.termsPtr ∧
      C6pg2.heap.get C6i.nsPtr = C6pg.heap.get C6i.nsPtr) ∧
    dictGet (C6pg2.heap.get C6res2.nsPtr) "ex" = some "http://one/" ∧
    dictGet (C6pg2.heap.get C6res2.nsPtr) "p" = some "P" := by
  have hwf : C6pg.heap.WF := (by decide : ∀ c ∈ C6pg.heap.cells, c.1 < C6pg.heap.next)
  have app1 := C6_inherits_by_reference_without_mutation wEnv "1.1" "http://b/" C6node C6i
      C6pg BnodeSess.init C6pg1 ⟨2, 3, none⟩ C6pg1 C6res1 [] hwf (by decide) (by decide)
      (by decide) (by decide) (by rfl) (by rfl)
  have app2 := C6_inherits_by_reference_without_mutation wEnv "1.1" "http://b/" C6node2 C6i
      C6pg BnodeSess.init C6pg1 ⟨2, 3, none⟩ C6pg2 C6res2 [] hwf (by decide) (by decide)
      (by decide) (by decide) (by rfl) (by rfl)
  refine ⟨⟨hwf, by decide, by decide, by decide, by decide⟩, ⟨?_, ?_⟩, app2.1, ?_, ?_⟩
  · exact app1.2.1 (by rfl)
  · exact app1.2.2.1 (by rfl)
  · have hE := app2.2.2.2.2 (by decide)
      (by decide : ((C6pg1.heap.get C6i.nsPtr).map Prod.fst).Nodup)
    rw [hE "ex"]
    rfl
  · have hE := app2.2.2.2.2 (by decide)
      (by decide : ((C6pg1.heap.get C6i.nsPtr).map Prod.fst).Nodup)
    rw [hE "p"]
    rfl

end PyRdfa
